import Mathlib

/-!
Verification of the planetary-explorer coordinate engine.

This file gives a shallow embedding, over the rationals, of the
longitude-convention module (`app/lib/coordinates.ts`), the projection
transform (`app/lib/planetary/geodesy.ts`), the alignment-correction
resolver (`app/lib/planetary/alignments.ts`), the dataset registry
(`app/lib/planetary/datasets.ts`), and the tile-address / nearest-feature
logic of the tile viewer component, and proves the specified properties
about them.  JavaScript's `%` operator (truncated remainder) is embedded
as `jsMod`; IEEE special values are modelled separately by `JSNum` where
a claim is about non-finite inputs.
-/

/-- Truncation toward zero, as JavaScript division/remainder uses. -/
def jsTrunc (q : ℚ) : ℤ := if 0 ≤ q then ⌊q⌋ else ⌈q⌉

/-- JavaScript's `%` operator on finite numbers: `a - n * trunc (a / n)`. -/
def jsMod (a n : ℚ) : ℚ := a - n * (jsTrunc (a / n) : ℤ)

theorem jsTrunc_of_nonneg {q : ℚ} (h : 0 ≤ q) : jsTrunc q = ⌊q⌋ := if_pos h

theorem jsMod_of_nonneg {a n : ℚ} (h : 0 ≤ a / n) :
    jsMod a n = a - n * (⌊a / n⌋ : ℤ) := by
  unfold jsMod
  rw [jsTrunc_of_nonneg h]

/-- The floor-based remainder `a - 360⌊a/360⌋` is in `[0, 360)`. -/
theorem floorRem_mem (a : ℚ) :
    0 ≤ a - 360 * (⌊a / 360⌋ : ℤ) ∧ a - 360 * (⌊a / 360⌋ : ℤ) < 360 := by
  have h1 : ((⌊a / 360⌋ : ℤ) : ℚ) ≤ a / 360 := Int.floor_le (a / 360)
  have h2 : a / 360 < (⌊a / 360⌋ : ℤ) + 1 := Int.lt_floor_add_one (a / 360)
  constructor <;> nlinarith [h1, h2]

/-- The double-`%` pattern `((a % 360) + 360) % 360` used by every wrap
function in the source equals the mathematical (floor) remainder. -/
theorem jsMod_wrap (a : ℚ) :
    jsMod (jsMod a 360 + 360) 360 = a - 360 * (⌊a / 360⌋ : ℤ) := by
  by_cases ha : 0 ≤ a / 360
  · -- first `%` already gives the floor remainder, in [0, 360)
    obtain ⟨n, hn⟩ : ∃ n : ℤ, n = ⌊a / 360⌋ := ⟨_, rfl⟩
    have hn1 : (n : ℚ) ≤ a / 360 := hn ▸ Int.floor_le (a / 360)
    have hn2 : a / 360 < (n : ℚ) + 1 := by
      rw [hn]; exact_mod_cast Int.lt_floor_add_one (a / 360)
    have ha1 : 360 * (n : ℚ) ≤ a := by
      rw [le_div_iff (by norm_num : (0:ℚ) < 360)] at hn1; linarith
    have ha2 : a < 360 * (n : ℚ) + 360 := by
      rw [div_lt_iff (by norm_num : (0:ℚ) < 360)] at hn2; linarith
    rw [jsMod_of_nonneg ha, ← hn]
    have hb : 0 ≤ (a - 360 * (n : ℚ) + 360) / 360 := by
      apply div_nonneg _ (by norm_num); linarith
    rw [jsMod_of_nonneg hb]
    have hfl : ⌊(a - 360 * (n : ℚ) + 360) / 360⌋ = 1 := by
      rw [Int.floor_eq_iff]
      constructor
      · rw [le_div_iff (by norm_num : (0:ℚ) < 360)]; push_cast; linarith
      · rw [div_lt_iff (by norm_num : (0:ℚ) < 360)]; push_cast; linarith
    rw [hfl]
    push_cast
    ring
  · -- negative dividend: first `%` is in (-360, 0]
    obtain ⟨c, hc⟩ : ∃ c : ℤ, c = ⌈a / 360⌉ := ⟨_, rfl⟩
    have hc1 : a / 360 ≤ (c : ℚ) := hc ▸ Int.le_ceil (a / 360)
    have hc2 : (c : ℚ) < a / 360 + 1 := by
      rw [hc]; exact_mod_cast Int.ceil_lt_add_one (a / 360)
    have h360 : a / 360 * 360 = a := div_mul_cancel₀ a (by norm_num)
    have ha1 : a ≤ 360 * (c : ℚ) := by nlinarith [hc1, h360]
    have ha2 : 360 * (c : ℚ) - 360 < a := by nlinarith [hc2, h360]
    have hstep : jsMod a 360 = a - 360 * (c : ℚ) := by
      unfold jsMod
      rw [show jsTrunc (a / 360) = ⌈a / 360⌉ from if_neg ha, ← hc]
    rw [hstep]
    have hb : 0 ≤ (a - 360 * (c : ℚ) + 360) / 360 := by
      apply div_nonneg _ (by norm_num); linarith
    rw [jsMod_of_nonneg hb]
    rcases eq_or_lt_of_le ha1 with hz | hz
    · -- a is an exact multiple of 360
      have hq : a / 360 = (c : ℚ) := by
        rw [hz]; field_simp
      have hflA : ⌊a / 360⌋ = c := by rw [hq, Int.floor_intCast]
      have hfl1 : ⌊(a - 360 * (c : ℚ) + 360) / 360⌋ = 1 := by
        rw [hz]
        norm_num
      rw [hfl1, hflA, hz]
      push_cast
      ring
    · -- a is strictly below the next multiple: floor = ceil - 1
      have hflA : ⌊a / 360⌋ = c - 1 := by
        rw [Int.floor_eq_iff]
        constructor
        · push_cast
          rw [le_div_iff (by norm_num : (0:ℚ) < 360)]; linarith
        · push_cast
          rw [div_lt_iff (by norm_num : (0:ℚ) < 360)]; linarith
      have hfl0 : ⌊(a - 360 * (c : ℚ) + 360) / 360⌋ = 0 := by
        rw [Int.floor_eq_iff]
        constructor
        · push_cast
          rw [le_div_iff (by norm_num : (0:ℚ) < 360)]; linarith
        · push_cast
          rw [div_lt_iff (by norm_num : (0:ℚ) < 360)]; linarith
      rw [hfl0, hflA]
      push_cast
      ring

/-- Congruence modulo 360 degrees (two angles denote the same meridian). -/
def Cong360 (x y : ℚ) : Prop := ∃ k : ℤ, x - y = 360 * k

theorem Cong360.refl (x : ℚ) : Cong360 x x := ⟨0, by ring⟩

theorem Cong360.symm {x y : ℚ} (h : Cong360 x y) : Cong360 y x := by
  obtain ⟨k, hk⟩ := h
  exact ⟨-k, by push_cast; linarith⟩

theorem Cong360.trans {x y z : ℚ} (h1 : Cong360 x y) (h2 : Cong360 y z) :
    Cong360 x z := by
  obtain ⟨k, hk⟩ := h1
  obtain ⟨l, hl⟩ := h2
  exact ⟨k + l, by push_cast; linarith⟩

theorem Cong360.neg {x y : ℚ} (h : Cong360 x y) : Cong360 (-x) (-y) := by
  obtain ⟨k, hk⟩ := h
  exact ⟨-k, by push_cast; linarith⟩

theorem Cong360.add_const {x y c : ℚ} (h : Cong360 x y) :
    Cong360 (x + c) (y + c) := by
  obtain ⟨k, hk⟩ := h
  exact ⟨k, by linarith⟩

theorem Cong360.sub_360 (x : ℚ) : Cong360 (x - 360) x := ⟨-1, by push_cast; ring⟩

theorem Cong360.add_360 (x : ℚ) : Cong360 (x + 360) x := ⟨1, by push_cast; ring⟩

/-- Two congruent angles inside one half-open 360-degree window are equal. -/
theorem Cong360.eq_of_mem_Ico {x y l : ℚ} (h : Cong360 x y)
    (hx : l ≤ x ∧ x < l + 360) (hy : l ≤ y ∧ y < l + 360) : x = y := by
  obtain ⟨k, hk⟩ := h
  have hb : -360 < 360 * (k : ℚ) ∧ 360 * (k : ℚ) < 360 := by
    constructor <;> linarith [hx.1, hx.2, hy.1, hy.2]
  have hk0 : k = 0 := by
    have h1 : -1 < (k : ℚ) := by linarith [hb.1]
    have h2 : (k : ℚ) < 1 := by linarith [hb.2]
    exact_mod_cast by
      have : (-1 : ℚ) < k ∧ (k : ℚ) < 1 := ⟨h1, h2⟩
      have hk1 : (-1 : ℤ) < k := by exact_mod_cast this.1
      have hk2 : k < (1 : ℤ) := by exact_mod_cast this.2
      omega
  rw [hk0] at hk
  push_cast at hk
  linarith

/-- Two congruent angles inside one half-open window `(lo, lo+360]` are equal. -/
theorem Cong360.eq_of_mem_Ioc {x y l : ℚ} (h : Cong360 x y)
    (hx : l < x ∧ x ≤ l + 360) (hy : l < y ∧ y ≤ l + 360) : x = y := by
  obtain ⟨k, hk⟩ := h
  have h1 : -1 < (k : ℚ) := by nlinarith [hx.1, hx.2, hy.1, hy.2]
  have h2 : (k : ℚ) < 1 := by nlinarith [hx.1, hx.2, hy.1, hy.2]
  have hk0 : k = 0 := by
    have hk1 : (-1 : ℤ) < k := by exact_mod_cast h1
    have hk2 : k < (1 : ℤ) := by exact_mod_cast h2
    omega
  rw [hk0] at hk
  push_cast at hk
  linarith

namespace Coordinates

/-! Embedding of `app/lib/coordinates.ts`.  The `Number.isFinite` guards
of the source are identities on the rationals; the behaviour of the same
functions on IEEE non-finite inputs is modelled by `JSModel` below. -/

inductive LongitudeDirection where
  | east
  | west
deriving DecidableEq, Repr

inductive LongitudeDomain where
  | d180
  | d360
deriving DecidableEq, Repr

structure LongitudeConvention where
  direction : LongitudeDirection
  domain : LongitudeDomain
deriving DecidableEq, Repr

def wrapLongitude360 (value : ℚ) : ℚ := jsMod (jsMod value 360 + 360) 360

def wrapLongitude180 (value : ℚ) : ℚ :=
  jsMod (jsMod (value + 180) 360 + 360) 360 - 180

def normalizeLongitude (value : ℚ) (convention : LongitudeConvention) : ℚ :=
  let lon0 := match convention.domain with
    | .d360 => wrapLongitude360 value
    | .d180 => wrapLongitude180 value
  let lon1 := match convention.direction with
    | .west => match convention.domain with
      | .d360 => wrapLongitude360 (360 - lon0)
      | .d180 => -lon0
    | .east => lon0
  wrapLongitude180 lon1

theorem wrapLongitude360_eq (value : ℚ) :
    wrapLongitude360 value = value - 360 * (⌊value / 360⌋ : ℤ) := jsMod_wrap value

theorem wrapLongitude360_mem_raw (value : ℚ) :
    0 ≤ wrapLongitude360 value ∧ wrapLongitude360 value < 360 := by
  rw [wrapLongitude360_eq]
  exact floorRem_mem value

theorem wrapLongitude360_cong_raw (value : ℚ) :
    Cong360 (wrapLongitude360 value) value := by
  rw [wrapLongitude360_eq]
  exact ⟨-⌊value / 360⌋, by push_cast; ring⟩

theorem wrapLongitude180_mem_raw (value : ℚ) :
    -180 ≤ wrapLongitude180 value ∧ wrapLongitude180 value < 180 := by
  unfold wrapLongitude180
  have := floorRem_mem (value + 180)
  rw [jsMod_wrap (value + 180)]
  constructor <;> linarith [this.1, this.2]

theorem wrapLongitude180_cong_raw (value : ℚ) :
    Cong360 (wrapLongitude180 value) value := by
  unfold wrapLongitude180
  rw [jsMod_wrap (value + 180)]
  exact ⟨-⌊(value + 180) / 360⌋, by push_cast; ring⟩

end Coordinates

namespace Geodesy

/-! Embedding of `app/lib/planetary/geodesy.ts`. -/

inductive LongitudeConvention where
  | east180
  | east360
  | west360
deriving DecidableEq, Repr

/-- `wrapLongitude180` of geodesy.ts: unlike the one in coordinates.ts it
remaps the representative `-180` to `+180`, giving the range `(-180, 180]`. -/
def wrapLongitude180 (value : ℚ) : ℚ :=
  let wrapped := jsMod (jsMod (value + 180) 360 + 360) 360 - 180
  if wrapped = -180 then 180 else wrapped

def wrapLongitude360 (value : ℚ) : ℚ := jsMod (jsMod value 360 + 360) 360

theorem wrapLongitude360_mem (value : ℚ) :
    0 ≤ wrapLongitude360 value ∧ wrapLongitude360 value < 360 :=
  Coordinates.wrapLongitude360_mem_raw value

theorem wrapLongitude360_cong (value : ℚ) :
    Cong360 (wrapLongitude360 value) value :=
  Coordinates.wrapLongitude360_cong_raw value

theorem wrapLongitude180_mem (value : ℚ) :
    -180 < wrapLongitude180 value ∧ wrapLongitude180 value ≤ 180 := by
  unfold wrapLongitude180
  have h := Coordinates.wrapLongitude180_mem_raw value
  unfold Coordinates.wrapLongitude180 at h
  by_cases hfix : jsMod (jsMod (value + 180) 360 + 360) 360 - 180 = -180
  · simp only [hfix, if_pos]
    norm_num
  · simp only [hfix, if_neg, if_false]
    exact ⟨lt_of_le_of_ne h.1 (fun h' => hfix h'.symm), le_of_lt h.2⟩

theorem wrapLongitude180_cong (value : ℚ) :
    Cong360 (wrapLongitude180 value) value := by
  unfold wrapLongitude180
  have h := Coordinates.wrapLongitude180_cong_raw value
  unfold Coordinates.wrapLongitude180 at h
  by_cases hfix : jsMod (jsMod (value + 180) 360 + 360) 360 - 180 = -180
  · simp only [hfix, if_pos]
    refine Cong360.trans ?_ h
    rw [hfix]
    exact ⟨1, by norm_num⟩
  · simp only [hfix, if_neg, if_false]
    exact h

/-- On its own range `(-180, 180]` the geodesy wrap is the identity. -/
theorem wrapLongitude180_fixed {x : ℚ} (h1 : -180 < x) (h2 : x ≤ 180) :
    wrapLongitude180 x = x :=
  Cong360.eq_of_mem_Ioc (l := -180) (wrapLongitude180_cong x)
    ⟨(wrapLongitude180_mem x).1, by linarith [(wrapLongitude180_mem x).2]⟩
    ⟨h1, by linarith⟩

/-- On its own range `[0, 360)` the 360 wrap is the identity. -/
theorem wrapLongitude360_fixed {x : ℚ} (h1 : 0 ≤ x) (h2 : x < 360) :
    wrapLongitude360 x = x :=
  Cong360.eq_of_mem_Ico (l := 0) (wrapLongitude360_cong x)
    ⟨(wrapLongitude360_mem x).1, by linarith [(wrapLongitude360_mem x).2]⟩
    ⟨h1, by linarith⟩

def toEast180 (value : ℚ) : LongitudeConvention → ℚ
  | .east180 => wrapLongitude180 value
  | .east360 =>
    let wrapped := wrapLongitude360 value
    if 180 < wrapped then wrapped - 360 else wrapped
  | .west360 =>
    let wrapped := wrapLongitude360 value
    wrapLongitude180 (-wrapped)

def fromEast180 (value : ℚ) : LongitudeConvention → ℚ
  | .east180 => wrapLongitude180 value
  | .east360 =>
    let east180 := wrapLongitude180 value
    let adjusted := if east180 < 0 then east180 + 360 else east180
    wrapLongitude360 adjusted
  | .west360 => wrapLongitude360 (-(wrapLongitude180 value))

def convertLongitude (value : ℚ)
    (fromConv toConv : LongitudeConvention) : ℚ :=
  if fromConv = toConv then
    match toConv with
    | .east180 => wrapLongitude180 value
    | .east360 => wrapLongitude360 value
    | .west360 => wrapLongitude360 value
  else fromEast180 (toEast180 value fromConv) toConv

def normalizeLongitude (value : ℚ) (convention : LongitudeConvention) : ℚ :=
  convertLongitude value convention convention

/-- The set of values a convention's own wrap maps onto. -/
def Canonical : LongitudeConvention → ℚ → Prop
  | .east180, x => -180 < x ∧ x ≤ 180
  | .east360, x => 0 ≤ x ∧ x < 360
  | .west360, x => 0 ≤ x ∧ x < 360

theorem toEast180_mem (value : ℚ) (c : LongitudeConvention) :
    -180 < toEast180 value c ∧ toEast180 value c ≤ 180 := by
  cases c with
  | east180 => exact wrapLongitude180_mem value
  | east360 =>
    simp only [toEast180]
    have h := wrapLongitude360_mem value
    by_cases hgt : 180 < wrapLongitude360 value
    · simp only [hgt, if_pos]
      constructor <;> linarith [h.1, h.2]
    · simp only [hgt, if_neg, if_false]
      push_neg at hgt
      constructor <;> linarith [h.1]
  | west360 => exact wrapLongitude180_mem _

theorem toEast180_cong_east (value : ℚ) {c : LongitudeConvention}
    (hc : c ≠ LongitudeConvention.west360) :
    Cong360 (toEast180 value c) value := by
  cases c with
  | east180 => exact wrapLongitude180_cong value
  | east360 =>
    simp only [toEast180]
    by_cases hgt : 180 < wrapLongitude360 value
    · simp only [hgt, if_pos]
      exact Cong360.trans (Cong360.sub_360 _) (wrapLongitude360_cong value)
    · simp only [hgt, if_neg, if_false]
      exact wrapLongitude360_cong value
  | west360 => exact absurd rfl hc

theorem toEast180_cong_west (value : ℚ) :
    Cong360 (toEast180 value .west360) (-value) := by
  simp only [toEast180]
  exact Cong360.trans (wrapLongitude180_cong _)
    (Cong360.neg (wrapLongitude360_cong value))

theorem fromEast180_mem (value : ℚ) (c : LongitudeConvention) :
    Canonical c (fromEast180 value c) := by
  cases c with
  | east180 =>
    exact ⟨(wrapLongitude180_mem value).1, (wrapLongitude180_mem value).2⟩
  | east360 => exact wrapLongitude360_mem _
  | west360 => exact wrapLongitude360_mem _

theorem fromEast180_cong_east (value : ℚ) {c : LongitudeConvention}
    (hc : c ≠ LongitudeConvention.west360) :
    Cong360 (fromEast180 value c) value := by
  cases c with
  | east180 => exact wrapLongitude180_cong value
  | east360 =>
    simp only [fromEast180]
    by_cases hneg : wrapLongitude180 value < 0
    · simp only [hneg, if_pos]
      refine Cong360.trans (wrapLongitude360_cong _) ?_
      exact Cong360.trans (Cong360.add_360 _) (wrapLongitude180_cong value)
    · simp only [hneg, if_neg, if_false]
      exact Cong360.trans (wrapLongitude360_cong _) (wrapLongitude180_cong value)
  | west360 => exact absurd rfl hc

theorem fromEast180_cong_west (value : ℚ) :
    Cong360 (fromEast180 value .west360) (-value) := by
  simp only [fromEast180]
  exact Cong360.trans (wrapLongitude360_cong _)
    (Cong360.neg (wrapLongitude180_cong value))

/-- Converting out of the canonical east-180 pivot and back is the identity
on the pivot's range `(-180, 180]`. -/
theorem toEast180_fromEast180 {e : ℚ} (h1 : -180 < e) (h2 : e ≤ 180)
    (c : LongitudeConvention) : toEast180 (fromEast180 e c) c = e := by
  have hmemTo := toEast180_mem (fromEast180 e c) c
  cases hc : c with
  | east180 =>
    simp only [toEast180, fromEast180]
    rw [wrapLongitude180_fixed (wrapLongitude180_mem e).1 (wrapLongitude180_mem e).2,
      wrapLongitude180_fixed h1 h2]
  | east360 =>
    apply Cong360.eq_of_mem_Ioc (l := -180)
    · refine Cong360.trans (toEast180_cong_east _ (by simp)) ?_
      exact fromEast180_cong_east e (by simp)
    · rw [hc] at hmemTo
      exact ⟨hmemTo.1, by linarith [hmemTo.2]⟩
    · exact ⟨h1, by linarith⟩
  | west360 =>
    apply Cong360.eq_of_mem_Ioc (l := -180)
    · refine Cong360.trans (toEast180_cong_west _) ?_
      have := fromEast180_cong_west e
      have h' := Cong360.neg this
      rw [neg_neg] at h'
      exact h'
    · rw [hc] at hmemTo
      exact ⟨hmemTo.1, by linarith [hmemTo.2]⟩
    · exact ⟨h1, by linarith⟩

/-- Pivoting a canonical value through east-180 and back is the identity. -/
theorem fromEast180_toEast180 {y : ℚ} (c : LongitudeConvention)
    (hy : Canonical c y) : fromEast180 (toEast180 y c) c = y := by
  have hmemFrom := fromEast180_mem (toEast180 y c) c
  cases hc : c with
  | east180 =>
    simp only [toEast180, fromEast180]
    rw [hc] at hy
    rw [wrapLongitude180_fixed hy.1 hy.2, wrapLongitude180_fixed hy.1 hy.2]
  | east360 =>
    apply Cong360.eq_of_mem_Ico (l := 0)
    · refine Cong360.trans (fromEast180_cong_east _ (by simp)) ?_
      exact toEast180_cong_east y (by simp)
    · rw [hc] at hmemFrom
      exact ⟨hmemFrom.1, by linarith [hmemFrom.2]⟩
    · rw [hc] at hy
      exact ⟨hy.1, by linarith [hy.2]⟩
  | west360 =>
    apply Cong360.eq_of_mem_Ico (l := 0)
    · refine Cong360.trans (fromEast180_cong_west _) ?_
      have := toEast180_cong_west y
      have h' := Cong360.neg this
      rw [neg_neg] at h'
      exact h'
    · rw [hc] at hmemFrom
      exact ⟨hmemFrom.1, by linarith [hmemFrom.2]⟩
    · rw [hc] at hy
      exact ⟨hy.1, by linarith [hy.2]⟩

theorem normalizeLongitude_mem (value : ℚ) (c : LongitudeConvention) :
    Canonical c (normalizeLongitude value c) := by
  unfold normalizeLongitude convertLongitude
  rw [if_pos rfl]
  cases c with
  | east180 => exact ⟨(wrapLongitude180_mem value).1, (wrapLongitude180_mem value).2⟩
  | east360 => exact wrapLongitude360_mem value
  | west360 => exact wrapLongitude360_mem value

theorem normalizeLongitude_fixed {y : ℚ} (c : LongitudeConvention)
    (hy : Canonical c y) : normalizeLongitude y c = y := by
  unfold normalizeLongitude convertLongitude
  rw [if_pos rfl]
  cases c with
  | east180 => exact wrapLongitude180_fixed hy.1 hy.2
  | east360 => exact wrapLongitude360_fixed hy.1 hy.2
  | west360 => exact wrapLongitude360_fixed hy.1 hy.2

/-- Full round trip on canonical values, for any pair of conventions. -/
theorem convertLongitude_roundTrip {y : ℚ} (c1 c2 : LongitudeConvention)
    (hy : Canonical c1 y) :
    convertLongitude (convertLongitude y c1 c2) c2 c1 = y := by
  by_cases heq : c1 = c2
  · subst heq
    rw [show convertLongitude y c1 c1 = normalizeLongitude y c1 from rfl,
      normalizeLongitude_fixed c1 hy,
      show convertLongitude y c1 c1 = normalizeLongitude y c1 from rfl,
      normalizeLongitude_fixed c1 hy]
  · have heq' : c2 ≠ c1 := fun h => heq h.symm
    unfold convertLongitude
    rw [if_neg heq, if_neg heq']
    have he := toEast180_mem y c1
    rw [toEast180_fromEast180 he.1 he.2 c2]
    exact fromEast180_toEast180 c1 hy

end Geodesy

namespace Constants

/-! Embedding of `app/lib/planetary/constants.ts`. -/

inductive PlanetaryBodyKey where
  | moon
  | mars
  | mercury
  | ceres
  | vesta
deriving DecidableEq, Repr

structure PlanetaryBodyDefinition where
  id : PlanetaryBodyKey
  name : String
  meanRadiusMeters : ℚ
  flattening : ℚ
  primeMeridianOffsetDeg : ℚ
  defaultLongitudeDirection : Coordinates.LongitudeDirection
  defaultLongitudeDomain : ℕ
deriving DecidableEq, Repr

def PLANETARY_BODIES : PlanetaryBodyKey → PlanetaryBodyDefinition
  | .moon =>
    { id := .moon, name := "Moon", meanRadiusMeters := 1737400, flattening := 0,
      primeMeridianOffsetDeg := 0, defaultLongitudeDirection := .east,
      defaultLongitudeDomain := 360 }
  | .mars =>
    { id := .mars, name := "Mars", meanRadiusMeters := 3389500, flattening := 0,
      primeMeridianOffsetDeg := 0, defaultLongitudeDirection := .east,
      defaultLongitudeDomain := 360 }
  | .mercury =>
    { id := .mercury, name := "Mercury", meanRadiusMeters := 2439700,
      flattening := 0, primeMeridianOffsetDeg := 0,
      defaultLongitudeDirection := .east, defaultLongitudeDomain := 360 }
  | .ceres =>
    { id := .ceres, name := "Ceres", meanRadiusMeters := 473000, flattening := 0,
      primeMeridianOffsetDeg := 0, defaultLongitudeDirection := .east,
      defaultLongitudeDomain := 360 }
  | .vesta =>
    { id := .vesta, name := "Vesta", meanRadiusMeters := 262700, flattening := 0,
      primeMeridianOffsetDeg := 0, defaultLongitudeDirection := .east,
      defaultLongitudeDomain := 360 }

def getPlanetaryBodyDefinition (body : PlanetaryBodyKey) : PlanetaryBodyDefinition :=
  PLANETARY_BODIES body

end Constants

namespace Alignments

/-! Embedding of `app/lib/planetary/alignments.ts`. -/

structure PixelOffset where
  x : ℚ
  y : ℚ
deriving DecidableEq, Repr

structure AlignmentDynamicZoomEntry where
  zoom : ℚ
  lat_offset_deg : Option ℚ := none
  lon_offset_deg : Option ℚ := none
  pixel_offset : Option PixelOffset := none
deriving DecidableEq, Repr

structure AlignmentLatBandEntry where
  min_lat : ℚ
  max_lat : ℚ
  lat_offset_deg : Option ℚ := none
  lon_offset_deg : Option ℚ := none
deriving DecidableEq, Repr

structure AlignmentDynamic where
  zoom_levels : Option (List AlignmentDynamicZoomEntry) := none
  lat_bands : Option (List AlignmentLatBandEntry) := none
deriving DecidableEq, Repr

structure AlignmentCorrection where
  lat_offset_deg : Option ℚ := none
  lon_offset_deg : Option ℚ := none
  pixel_offset : Option PixelOffset := none
  lat_scale : Option ℚ := none
  lon_scale : Option ℚ := none
  dynamic : Option AlignmentDynamic := none
deriving DecidableEq, Repr

/-- Modelled from the spec: the module-level dictionary loaded from
`@/data/alignment_corrections.json` (the JSON data file is not part of the
source tree); a named key-value store mapping dataset id to
`AlignmentCorrection`.  It is threaded as an explicit parameter. -/
def AlignmentDictionary : Type := String → Option AlignmentCorrection

def getAlignmentCorrection (data : AlignmentDictionary) (datasetId : String) :
    Option AlignmentCorrection :=
  data datasetId

structure AlignmentRequest where
  datasetId : String
  lat : ℚ
  lon : ℚ
  zoom : Option ℚ := none
deriving DecidableEq, Repr

structure AlignmentResult where
  lat : ℚ
  lon : ℚ
  pixelOffsetX : ℚ
  pixelOffsetY : ℚ
deriving DecidableEq, Repr

structure ResolvedOffsets where
  latOffset : ℚ
  lonOffset : ℚ
  pixelOffsetX : ℚ
  pixelOffsetY : ℚ
deriving DecidableEq, Repr

/-- Stable ascending insertion used to model
`entries.slice().sort((a, b) => a.zoom - b.zoom)`. -/
def insertByZoom (e : AlignmentDynamicZoomEntry) :
    List AlignmentDynamicZoomEntry → List AlignmentDynamicZoomEntry
  | [] => [e]
  | f :: rest =>
    if e.zoom ≤ f.zoom then e :: f :: rest else f :: insertByZoom e rest

def sortByZoom (entries : List AlignmentDynamicZoomEntry) :
    List AlignmentDynamicZoomEntry :=
  entries.foldr insertByZoom []

/-- The `for … if (entry.zoom <= zoom) lower = entry; if (entry.zoom >= zoom)
{ upper = entry; break }` scan of `resolveDynamicOffsets`. -/
def scanBracket (zoom : ℚ) :
    List AlignmentDynamicZoomEntry → AlignmentDynamicZoomEntry →
    AlignmentDynamicZoomEntry →
    AlignmentDynamicZoomEntry × AlignmentDynamicZoomEntry
  | [], lower, upper => (lower, upper)
  | e :: rest, lower, upper =>
    let lower' := if e.zoom ≤ zoom then e else lower
    if zoom ≤ e.zoom then (lower', e) else scanBracket zoom rest lower' upper

def resolveDynamicOffsets (correction : Option AlignmentCorrection)
    (lat : ℚ) (zoom : Option ℚ) : ResolvedOffsets :=
  let latOffset0 := (correction.bind AlignmentCorrection.lat_offset_deg).getD 0
  let lonOffset0 := (correction.bind AlignmentCorrection.lon_offset_deg).getD 0
  let pixelOffsetX0 :=
    ((correction.bind AlignmentCorrection.pixel_offset).map PixelOffset.x).getD 0
  let pixelOffsetY0 :=
    ((correction.bind AlignmentCorrection.pixel_offset).map PixelOffset.y).getD 0
  let bands :=
    ((correction.bind AlignmentCorrection.dynamic).bind AlignmentDynamic.lat_bands).getD []
  let bandAdjusted := bands.foldl
    (fun acc band =>
      if band.min_lat ≤ lat ∧ lat ≤ band.max_lat then
        (acc.1 + band.lat_offset_deg.getD 0, acc.2 + band.lon_offset_deg.getD 0)
      else acc)
    (latOffset0, lonOffset0)
  let base : ResolvedOffsets :=
    { latOffset := bandAdjusted.1, lonOffset := bandAdjusted.2,
      pixelOffsetX := pixelOffsetX0, pixelOffsetY := pixelOffsetY0 }
  match zoom,
    (correction.bind AlignmentCorrection.dynamic).bind AlignmentDynamic.zoom_levels with
  | some z, some rawEntries =>
    if rawEntries.length > 0 then
      match sortByZoom rawEntries with
      | [] => base
      | e0 :: tailEntries =>
        let entries := e0 :: tailEntries
        let (lower, upper) := scanBracket z entries e0 (entries.getLastD e0)
        let span0 := upper.zoom - lower.zoom
        let span := if span0 = 0 then 1 else span0
        let t := max 0 (min 1 ((z - lower.zoom) / span))
        let interp := fun (s e : Option ℚ) => s.getD 0 + t * (e.getD 0 - s.getD 0)
        { latOffset := base.latOffset + interp lower.lat_offset_deg upper.lat_offset_deg,
          lonOffset := base.lonOffset + interp lower.lon_offset_deg upper.lon_offset_deg,
          pixelOffsetX := base.pixelOffsetX +
            interp (lower.pixel_offset.map PixelOffset.x)
              (upper.pixel_offset.map PixelOffset.x),
          pixelOffsetY := base.pixelOffsetY +
            interp (lower.pixel_offset.map PixelOffset.y)
              (upper.pixel_offset.map PixelOffset.y) }
    else base
  | _, _ => base

def applyAlignmentCorrectionForward (data : AlignmentDictionary)
    (req : AlignmentRequest) : AlignmentResult :=
  let correction := getAlignmentCorrection data req.datasetId
  let r := resolveDynamicOffsets correction req.lat req.zoom
  let latScale := (correction.bind AlignmentCorrection.lat_scale).getD 1
  let lonScale := (correction.bind AlignmentCorrection.lon_scale).getD 1
  { lat := req.lat * latScale + r.latOffset,
    lon := req.lon * lonScale + r.lonOffset,
    pixelOffsetX := r.pixelOffsetX,
    pixelOffsetY := r.pixelOffsetY }

def applyAlignmentCorrectionInverse (data : AlignmentDictionary)
    (req : AlignmentRequest) : AlignmentResult :=
  let correction := getAlignmentCorrection data req.datasetId
  let r := resolveDynamicOffsets correction req.lat req.zoom
  let latScale := (correction.bind AlignmentCorrection.lat_scale).getD 1
  let lonScale := (correction.bind AlignmentCorrection.lon_scale).getD 1
  { lat := (req.lat - r.latOffset) / (if latScale = 0 then 1 else latScale),
    lon := (req.lon - r.lonOffset) / (if lonScale = 0 then 1 else lonScale),
    pixelOffsetX := -r.pixelOffsetX,
    pixelOffsetY := -r.pixelOffsetY }

end Alignments

namespace Geodesy

structure SimpleCylindricalProjection where
  body : Constants.PlanetaryBodyKey
  centralMeridianDeg : ℚ
  primeMeridianOffsetDeg : ℚ
  lonDirection : Coordinates.LongitudeDirection
  lonDomain : ℕ
  radiusMeters : Option ℚ := none
  nativeConvention : Option LongitudeConvention := none
deriving DecidableEq, Repr

structure ProjectionContext where
  datasetId : String
  projection : SimpleCylindricalProjection
deriving DecidableEq, Repr

structure PixelDimensions where
  width : ℚ
  height : ℚ
deriving DecidableEq, Repr

structure CoordinateTransformOptions where
  targetConvention : Option LongitudeConvention := none
  applyCorrections : Option Bool := none
  zoomLevel : Option ℚ := none
deriving DecidableEq, Repr

structure NormalizedCoordinate where
  u : ℚ
  v : ℚ
  pixelOffsetX : ℚ
  pixelOffsetY : ℚ
deriving DecidableEq, Repr

structure GeoCoordinate where
  lat : ℚ
  lon : ℚ
deriving DecidableEq, Repr

structure PixelPoint where
  x : ℚ
  y : ℚ
deriving DecidableEq, Repr

def createDefaultProjection (body : Constants.PlanetaryBodyKey) :
    SimpleCylindricalProjection :=
  let bodyDef := Constants.PLANETARY_BODIES body
  { body := body,
    centralMeridianDeg := 0,
    primeMeridianOffsetDeg := bodyDef.primeMeridianOffsetDeg,
    lonDirection := bodyDef.defaultLongitudeDirection,
    lonDomain := bodyDef.defaultLongitudeDomain,
    radiusMeters := some bodyDef.meanRadiusMeters,
    nativeConvention :=
      some (if bodyDef.defaultLongitudeDomain = 360 then .east360 else .east180) }

def latLonToNormalized (data : Alignments.AlignmentDictionary)
    (latDeg lonDeg : ℚ) (context : ProjectionContext)
    (options : Option CoordinateTransformOptions) : NormalizedCoordinate :=
  let zoomLevel := options.bind CoordinateTransformOptions.zoomLevel
  let applyCorrections :=
    options.bind CoordinateTransformOptions.applyCorrections ≠ some false
  let lonCanonical := wrapLongitude180 lonDeg
  let latClamped := max (-90) (min 90 latDeg)
  let corrected : Alignments.AlignmentResult :=
    if applyCorrections then
      Alignments.applyAlignmentCorrectionForward data
        { datasetId := context.datasetId, lat := latClamped,
          lon := lonCanonical, zoom := zoomLevel }
    else
      { lat := latClamped, lon := lonCanonical,
        pixelOffsetX := 0, pixelOffsetY := 0 }
  let lonPrimeAdjusted :=
    wrapLongitude180 (corrected.lon - context.projection.primeMeridianOffsetDeg)
  let lonRelative :=
    wrapLongitude180 (lonPrimeAdjusted - context.projection.centralMeridianDeg)
  let lon360 := convertLongitude lonRelative .east180 .east360
  { u := lon360 / 360,
    v := (90 - corrected.lat) / 180,
    pixelOffsetX := corrected.pixelOffsetX,
    pixelOffsetY := corrected.pixelOffsetY }

def latLonToPixel (data : Alignments.AlignmentDictionary)
    (latDeg lonDeg : ℚ) (context : ProjectionContext)
    (dimensions : PixelDimensions)
    (options : Option CoordinateTransformOptions) : PixelPoint :=
  let normalized := latLonToNormalized data latDeg lonDeg context options
  { x := normalized.u * dimensions.width + normalized.pixelOffsetX,
    y := normalized.v * dimensions.height + normalized.pixelOffsetY }

def pixelToLatLon (data : Alignments.AlignmentDictionary)
    (x y : ℚ) (context : ProjectionContext) (dimensions : PixelDimensions)
    (options : Option CoordinateTransformOptions) : GeoCoordinate :=
  let zoomLevel := options.bind CoordinateTransformOptions.zoomLevel
  let applyCorrections :=
    options.bind CoordinateTransformOptions.applyCorrections ≠ some false
  let targetConvention :=
    (options.bind CoordinateTransformOptions.targetConvention).getD .east180
  let u := x / dimensions.width
  let v := y / dimensions.height
  let lonRelative := convertLongitude (u * 360) .east360 .east180
  let lonPrimeAdjusted :=
    wrapLongitude180 (lonRelative + context.projection.centralMeridianDeg)
  let lonCanonical :=
    wrapLongitude180 (lonPrimeAdjusted + context.projection.primeMeridianOffsetDeg)
  let latCanonical := 90 - v * 180
  if ¬applyCorrections then
    { lat := latCanonical,
      lon := convertLongitude lonCanonical .east180 targetConvention }
  else
    let inverted := Alignments.applyAlignmentCorrectionInverse data
      { datasetId := context.datasetId, lat := latCanonical,
        lon := lonCanonical, zoom := zoomLevel }
    { lat := inverted.lat,
      lon := convertLongitude inverted.lon .east180 targetConvention }

end Geodesy

/-- Transform options with alignment corrections disabled. -/
def correctionsOff : Option Geodesy.CoordinateTransformOptions :=
  some { applyCorrections := some false }

/-- An alignment dictionary with no correction records. -/
def emptyAlignments : Alignments.AlignmentDictionary := fun _ => none

namespace Geodesy

theorem latLonToNormalized_off (data : Alignments.AlignmentDictionary)
    (lat lon : ℚ) (ctx : ProjectionContext) :
    latLonToNormalized data lat lon ctx correctionsOff =
    { u := convertLongitude
        (wrapLongitude180
          (wrapLongitude180 (wrapLongitude180 lon - ctx.projection.primeMeridianOffsetDeg)
            - ctx.projection.centralMeridianDeg)) .east180 .east360 / 360,
      v := (90 - max (-90) (min 90 lat)) / 180,
      pixelOffsetX := 0, pixelOffsetY := 0 } := rfl

theorem pixelToLatLon_off (data : Alignments.AlignmentDictionary)
    (x y : ℚ) (ctx : ProjectionContext) (dims : PixelDimensions) :
    pixelToLatLon data x y ctx dims correctionsOff =
    { lat := 90 - y / dims.height * 180,
      lon := convertLongitude
        (wrapLongitude180
          (wrapLongitude180 (convertLongitude (x / dims.width * 360) .east360 .east180
            + ctx.projection.centralMeridianDeg)
          + ctx.projection.primeMeridianOffsetDeg)) .east180 .east180 } := rfl

theorem createDefaultProjection_pm (body : Constants.PlanetaryBodyKey) :
    (createDefaultProjection body).primeMeridianOffsetDeg = 0 := by
  cases body <;> rfl

theorem createDefaultProjection_cm (body : Constants.PlanetaryBodyKey) :
    (createDefaultProjection body).centralMeridianDeg = 0 := rfl

/-- With corrections disabled and any body's default projection, the
pixel round trip restores the clamped latitude exactly and the longitude
up to the canonical `(-180, 180]` representative. -/
theorem roundTrip_noCorrections (data : Alignments.AlignmentDictionary)
    (body : Constants.PlanetaryBodyKey) (datasetId : String)
    (lat lon w h : ℚ) (h1 : -90 ≤ lat) (h2 : lat ≤ 90)
    (hw : w ≠ 0) (hh : h ≠ 0) :
    pixelToLatLon data
      (latLonToPixel data lat lon ⟨datasetId, createDefaultProjection body⟩
        ⟨w, h⟩ correctionsOff).x
      (latLonToPixel data lat lon ⟨datasetId, createDefaultProjection body⟩
        ⟨w, h⟩ correctionsOff).y
      ⟨datasetId, createDefaultProjection body⟩ ⟨w, h⟩ correctionsOff =
    { lat := lat, lon := wrapLongitude180 lon } := by
  have hmem := wrapLongitude180_mem lon
  have hfix : wrapLongitude180 (wrapLongitude180 lon) = wrapLongitude180 lon :=
    wrapLongitude180_fixed hmem.1 hmem.2
  have hclamp : max (-90 : ℚ) (min 90 lat) = lat := by
    rw [min_eq_right h2, max_eq_right h1]
  simp only [latLonToPixel, latLonToNormalized_off, pixelToLatLon_off,
    createDefaultProjection_pm, createDefaultProjection_cm, sub_zero, add_zero,
    hclamp, hfix]
  set e := wrapLongitude180 lon with he
  set L := convertLongitude e .east180 .east360 with hL
  have hx : L / 360 * w / w * 360 = L := by
    rw [mul_div_cancel_right₀ _ hw, div_mul_cancel₀ _ (by norm_num : (360:ℚ) ≠ 0)]
  have hy : (90 - lat) / 180 * h / h * 180 = 90 - lat := by
    rw [mul_div_cancel_right₀ _ hh, div_mul_cancel₀ _ (by norm_num : (180:ℚ) ≠ 0)]
  rw [hx, hy]
  have hback : convertLongitude L .east360 .east180 = e := by
    rw [hL]
    exact convertLongitude_roundTrip .east180 .east360 ⟨hmem.1, hmem.2⟩
  rw [hback, hfix, hfix]
  have hfinal : convertLongitude e .east180 .east180 = e := by
    rw [show convertLongitude e .east180 .east180 = normalizeLongitude e .east180 from rfl]
    exact normalizeLongitude_fixed .east180 ⟨hmem.1, hmem.2⟩
  rw [hfinal]
  have : 90 - (90 - lat) = lat := by ring
  rw [this]

end Geodesy

/-- C1 counterexample: with the Moon's default projection, corrections
disabled and a 360x180 raster, the sample point (0, -180) on the date line
round-trips to (0, +180): the longitude differs from the original by 360
degrees, far beyond the sub-pixel tolerance of 1 degree per pixel. -/
theorem C1_counterexample :
    Geodesy.pixelToLatLon emptyAlignments
      (Geodesy.latLonToPixel emptyAlignments 0 (-180)
        ⟨"moon:lro_wac_global", Geodesy.createDefaultProjection .moon⟩
        ⟨360, 180⟩ correctionsOff).x
      (Geodesy.latLonToPixel emptyAlignments 0 (-180)
        ⟨"moon:lro_wac_global", Geodesy.createDefaultProjection .moon⟩
        ⟨360, 180⟩ correctionsOff).y
      ⟨"moon:lro_wac_global", Geodesy.createDefaultProjection .moon⟩
      ⟨360, 180⟩ correctionsOff =
    { lat := 0, lon := 180 } ∧ ¬ (|(180 : ℚ) - (-180)| ≤ 360 / 360) := by
  constructor
  · rw [Geodesy.roundTrip_noCorrections emptyAlignments .moon "moon:lro_wac_global"
      0 (-180) 360 180 (by norm_num) (by norm_num) (by norm_num) (by norm_num)]
    norm_num [Geodesy.wrapLongitude180, jsMod, jsTrunc]
  · norm_num

/-- C1 (amended): for every supported body with its default projection
context and corrections disabled, and every sample point with latitude in
[-90, 90] (poles, equator) and any longitude (prime meridian, date line),
converting (lat, lon) to pixels and back returns the original latitude
exactly and the original longitude up to the canonical (-180, 180]
representative: a longitude of -180 is returned as the equivalent +180;
all other sample longitudes round-trip exactly (hence sub-pixel). -/
theorem C1_projection_roundTrip (data : Alignments.AlignmentDictionary)
    (body : Constants.PlanetaryBodyKey) (datasetId : String)
    (lat lon w h : ℚ) (h1 : -90 ≤ lat) (h2 : lat ≤ 90)
    (hw : w ≠ 0) (hh : h ≠ 0) :
    Geodesy.pixelToLatLon data
      (Geodesy.latLonToPixel data lat lon
        ⟨datasetId, Geodesy.createDefaultProjection body⟩ ⟨w, h⟩ correctionsOff).x
      (Geodesy.latLonToPixel data lat lon
        ⟨datasetId, Geodesy.createDefaultProjection body⟩ ⟨w, h⟩ correctionsOff).y
      ⟨datasetId, Geodesy.createDefaultProjection body⟩ ⟨w, h⟩ correctionsOff =
    { lat := lat, lon := Geodesy.wrapLongitude180 lon } :=
  Geodesy.roundTrip_noCorrections data body datasetId lat lon w h h1 h2 hw hh

/-- C1 witness: the north pole on the date line of the Moon's default
projection round-trips exactly on a 360x180 raster. -/
theorem C1_projection_roundTrip_witness :
    Geodesy.pixelToLatLon emptyAlignments
      (Geodesy.latLonToPixel emptyAlignments 90 180
        ⟨"moon:lro_wac_global", Geodesy.createDefaultProjection .moon⟩
        ⟨360, 180⟩ correctionsOff).x
      (Geodesy.latLonToPixel emptyAlignments 90 180
        ⟨"moon:lro_wac_global", Geodesy.createDefaultProjection .moon⟩
        ⟨360, 180⟩ correctionsOff).y
      ⟨"moon:lro_wac_global", Geodesy.createDefaultProjection .moon⟩
      ⟨360, 180⟩ correctionsOff =
    { lat := 90, lon := 180 } := by
  rw [C1_projection_roundTrip emptyAlignments .moon "moon:lro_wac_global"
    90 180 360 180 (by norm_num) (by norm_num) (by norm_num) (by norm_num)]
  rw [Geodesy.wrapLongitude180_fixed (by norm_num) (by norm_num)]

/-- C2 counterexample: the claim's round trip fails at the boundary value
-180: converting -180 from east-180 to east-360 and back yields +180, which
is 360 degrees away from the input (not within 1e-9), and the canonical
representative chosen by the code for the -180/+180 point is +180, not the
claimed -180. -/
theorem C2_counterexample :
    Geodesy.convertLongitude
      (Geodesy.convertLongitude (-180) .east180 .east360) .east360 .east180 = 180 ∧
    ¬ (|(180 : ℚ) - (-180)| ≤ 1 / 1000000000) ∧
    Geodesy.normalizeLongitude (-180) .east180 = 180 := by
  refine ⟨?_, by norm_num, ?_⟩
  · simp only [Geodesy.convertLongitude, Geodesy.toEast180, Geodesy.fromEast180,
      reduceCtorEq, if_false]
    norm_num [Geodesy.wrapLongitude180, Geodesy.wrapLongitude360, jsMod, jsTrunc]
  · simp only [Geodesy.normalizeLongitude, Geodesy.convertLongitude, reduceIte]
    norm_num [Geodesy.wrapLongitude180, jsMod, jsTrunc]

/-- C2 (amended): for all longitude conventions c1 and c2, every angle
already in canonical form for c1 round-trips exactly (in particular within
1e-9) through convert(convert(x, c1, c2), c2, c1); the boundary values are
fixed to one canonical representative each, with -180 and +180 (the same
point) both canonicalizing to the representative +180 (not -180), and 0
and 360 both canonicalizing to 0. -/
theorem C2_convert_roundTrip :
    (∀ (x : ℚ) (c1 c2 : Geodesy.LongitudeConvention),
      Geodesy.convertLongitude
        (Geodesy.convertLongitude (Geodesy.normalizeLongitude x c1) c1 c2)
        c2 c1 = Geodesy.normalizeLongitude x c1) ∧
    Geodesy.normalizeLongitude (-180) .east180 = 180 ∧
    Geodesy.normalizeLongitude 180 .east180 = 180 ∧
    Geodesy.normalizeLongitude 0 .east180 = 0 ∧
    Geodesy.normalizeLongitude 360 .east180 = 0 := by
  refine ⟨fun x c1 c2 =>
    Geodesy.convertLongitude_roundTrip c1 c2 (Geodesy.normalizeLongitude_mem x c1),
    ?_, ?_, ?_, ?_⟩ <;>
  · simp only [Geodesy.normalizeLongitude, Geodesy.convertLongitude, reduceIte]
    norm_num [Geodesy.wrapLongitude180, jsMod, jsTrunc]

namespace Alignments

/-- The latitude-band fold of `resolveDynamicOffsets` adds up the offsets
of every band containing the latitude. -/
theorem band_foldl_eq (lat : ℚ) (bands : List AlignmentLatBandEntry) (a b : ℚ) :
    bands.foldl
      (fun acc band =>
        if band.min_lat ≤ lat ∧ lat ≤ band.max_lat then
          (acc.1 + band.lat_offset_deg.getD 0, acc.2 + band.lon_offset_deg.getD 0)
        else acc)
      (a, b) =
    (a + ((bands.filter fun band =>
        decide (band.min_lat ≤ lat ∧ lat ≤ band.max_lat)).map
          fun band => band.lat_offset_deg.getD 0).sum,
     b + ((bands.filter fun band =>
        decide (band.min_lat ≤ lat ∧ lat ≤ band.max_lat)).map
          fun band => band.lon_offset_deg.getD 0).sum) := by
  induction bands generalizing a b with
  | nil => simp
  | cons band rest ih =>
    by_cases h : band.min_lat ≤ lat ∧ lat ≤ band.max_lat
    · simp only [List.foldl_cons, if_pos h, ih, List.filter_cons,
        decide_eq_true h, if_true, List.map_cons, List.sum_cons, Prod.mk.injEq]
      constructor <;> ring
    · simp only [List.foldl_cons, if_neg h, ih, List.filter_cons,
        decide_eq_false h, Bool.false_eq_true, if_false]

/-- Resolving with no zoom given reduces to the static offsets plus the
summed matching latitude bands. -/
theorem resolveDynamicOffsets_no_zoom (c : AlignmentCorrection) (lat : ℚ) :
    resolveDynamicOffsets (some c) lat none =
    { latOffset := c.lat_offset_deg.getD 0 +
        (((c.dynamic.bind AlignmentDynamic.lat_bands).getD []).filter
            (fun band => decide (band.min_lat ≤ lat ∧ lat ≤ band.max_lat)) |>.map
          fun band => band.lat_offset_deg.getD 0).sum,
      lonOffset := c.lon_offset_deg.getD 0 +
        (((c.dynamic.bind AlignmentDynamic.lat_bands).getD []).filter
            (fun band => decide (band.min_lat ≤ lat ∧ lat ≤ band.max_lat)) |>.map
          fun band => band.lon_offset_deg.getD 0).sum,
      pixelOffsetX := (c.pixel_offset.map PixelOffset.x).getD 0,
      pixelOffsetY := (c.pixel_offset.map PixelOffset.y).getD 0 } := by
  unfold resolveDynamicOffsets
  simp only [Option.some_bind, band_foldl_eq]

end Alignments

/-- A correction record with two overlapping latitude bands, both
containing latitude 5. -/
def overlapBandsCorrection : Alignments.AlignmentCorrection where
  dynamic := some
    { lat_bands := some
        [{ min_lat := -10, max_lat := 10, lat_offset_deg := some 1,
           lon_offset_deg := some 2 },
         { min_lat := 0, max_lat := 20, lat_offset_deg := some 3,
           lon_offset_deg := some 4 }] }

/-- C5: for every correction record and query latitude, resolving with no
zoom returns the static offsets plus the summed contribution of every
latitude band whose [min_lat, max_lat] interval contains the latitude (not
just the first match); in particular two overlapping bands that both
contain the point contribute the sum of both bands' offsets. -/
theorem C5_band_summation :
    (∀ (c : Alignments.AlignmentCorrection) (lat : ℚ),
      Alignments.resolveDynamicOffsets (some c) lat none =
      { latOffset := c.lat_offset_deg.getD 0 +
          (((c.dynamic.bind Alignments.AlignmentDynamic.lat_bands).getD []).filter
              (fun band => decide (band.min_lat ≤ lat ∧ lat ≤ band.max_lat)) |>.map
            fun band => band.lat_offset_deg.getD 0).sum,
        lonOffset := c.lon_offset_deg.getD 0 +
          (((c.dynamic.bind Alignments.AlignmentDynamic.lat_bands).getD []).filter
              (fun band => decide (band.min_lat ≤ lat ∧ lat ≤ band.max_lat)) |>.map
            fun band => band.lon_offset_deg.getD 0).sum,
        pixelOffsetX := (c.pixel_offset.map Alignments.PixelOffset.x).getD 0,
        pixelOffsetY := (c.pixel_offset.map Alignments.PixelOffset.y).getD 0 }) ∧
    Alignments.resolveDynamicOffsets (some overlapBandsCorrection) 5 none =
    { latOffset := 1 + 3, lonOffset := 2 + 4,
      pixelOffsetX := 0, pixelOffsetY := 0 } := by
  refine ⟨Alignments.resolveDynamicOffsets_no_zoom, ?_⟩
  rw [Alignments.resolveDynamicOffsets_no_zoom]
  norm_num [overlapBandsCorrection, List.filter_cons, List.filter_nil]

namespace Alignments

/-- Reduction of `resolveDynamicOffsets` for a correction carrying only
dynamic zoom breakpoints, in terms of the bracket scan over the sorted
entry list. -/
theorem resolveDynamicOffsets_zoom_only (L : List AlignmentDynamicZoomEntry)
    (lat z : ℚ) (e0 : AlignmentDynamicZoomEntry)
    (tail : List AlignmentDynamicZoomEntry) (l u : AlignmentDynamicZoomEntry)
    (hL : 0 < L.length) (hs : sortByZoom L = e0 :: tail)
    (hscan : scanBracket z (e0 :: tail) e0 ((e0 :: tail).getLastD e0) = (l, u)) :
    resolveDynamicOffsets (some { dynamic := some { zoom_levels := some L } })
      lat (some z) =
    { latOffset := l.lat_offset_deg.getD 0 +
        max 0 (min 1 ((z - l.zoom) / (if u.zoom - l.zoom = 0 then 1 else u.zoom - l.zoom))) *
          (u.lat_offset_deg.getD 0 - l.lat_offset_deg.getD 0),
      lonOffset := l.lon_offset_deg.getD 0 +
        max 0 (min 1 ((z - l.zoom) / (if u.zoom - l.zoom = 0 then 1 else u.zoom - l.zoom))) *
          (u.lon_offset_deg.getD 0 - l.lon_offset_deg.getD 0),
      pixelOffsetX := (l.pixel_offset.map PixelOffset.x).getD 0 +
        max 0 (min 1 ((z - l.zoom) / (if u.zoom - l.zoom = 0 then 1 else u.zoom - l.zoom))) *
          ((u.pixel_offset.map PixelOffset.x).getD 0 -
            (l.pixel_offset.map PixelOffset.x).getD 0),
      pixelOffsetY := (l.pixel_offset.map PixelOffset.y).getD 0 +
        max 0 (min 1 ((z - l.zoom) / (if u.zoom - l.zoom = 0 then 1 else u.zoom - l.zoom))) *
          ((u.pixel_offset.map PixelOffset.y).getD 0 -
            (l.pixel_offset.map PixelOffset.y).getD 0) } := by
  unfold resolveDynamicOffsets
  simp only [Option.some_bind, Option.bind_none, Option.getD_none, Option.map_none,
    List.foldl_nil, hs]
  rw [if_pos (by simpa using hL), hscan]
  simp

theorem sortByZoom_pair {e1 e2 : AlignmentDynamicZoomEntry}
    (h : e1.zoom ≤ e2.zoom) : sortByZoom [e1, e2] = [e1, e2] := by
  simp only [sortByZoom, List.foldr_cons, List.foldr_nil, insertByZoom, if_pos h]

theorem sortByZoom_pair_rev {e1 e2 : AlignmentDynamicZoomEntry}
    (h : ¬ e2.zoom ≤ e1.zoom) : sortByZoom [e2, e1] = [e1, e2] := by
  simp only [sortByZoom, List.foldr_cons, List.foldr_nil, insertByZoom, if_neg h]

/-- Two zoom-breakpoint lists that sort identically resolve identically. -/
theorem resolveDynamicOffsets_sort_congr (L L' : List AlignmentDynamicZoomEntry)
    (lat z : ℚ) (h1 : 0 < L.length) (h2 : 0 < L'.length)
    (hs : sortByZoom L = sortByZoom L') :
    resolveDynamicOffsets (some { dynamic := some { zoom_levels := some L } })
      lat (some z) =
    resolveDynamicOffsets (some { dynamic := some { zoom_levels := some L' } })
      lat (some z) := by
  unfold resolveDynamicOffsets
  simp only [Option.some_bind]
  rw [if_pos (by simpa using h1), if_pos (by simpa using h2), hs]


/-- First breakpoint of the interpolation fixture: only a lat offset. -/
def bpEntry1 (z1 o1 : ℚ) : AlignmentDynamicZoomEntry :=
  { zoom := z1, lat_offset_deg := some o1 }

/-- Second breakpoint of the interpolation fixture: lat and lon offsets. -/
def bpEntry2 (z2 o2 l2 : ℚ) : AlignmentDynamicZoomEntry :=
  { zoom := z2, lat_offset_deg := some o2, lon_offset_deg := some l2 }

/-- A correction with two dynamic zoom breakpoints (z1, lat o1) and
(z2, lat o2, lon l2), in ascending order. -/
def twoBreakpointCorrection (z1 o1 z2 o2 l2 : ℚ) : AlignmentCorrection where
  dynamic := some { zoom_levels := some [bpEntry1 z1 o1, bpEntry2 z2 o2 l2] }

/-- The same two breakpoints listed in descending zoom order. -/
def twoBreakpointReversed (z1 o1 z2 o2 l2 : ℚ) : AlignmentCorrection where
  dynamic := some { zoom_levels := some [bpEntry2 z2 o2 l2, bpEntry1 z1 o1] }

end Alignments

/-- C4: with dynamic zoom breakpoints (z1, lat offset o1) and (z2, lat
offset o2, lon offset l2), z1 < z2, the resolver sorts ascending (the
reversed list resolves identically), brackets the query zoom clamping to
the first/last breakpoint outside [z1, z2], and linearly interpolates each
offset field independently, a missing field contributing 0; in particular
breakpoints at zoom 2 with offset 10 and zoom 6 with offset 20 resolve to
15 at zoom 4, to 10 at every zoom below 2, and to 20 at every zoom above 6. -/
theorem C4_zoom_interpolation (z1 o1 z2 o2 l2 zoom : ℚ) (hz : z1 < z2) :
    Alignments.resolveDynamicOffsets
      (some (Alignments.twoBreakpointCorrection z1 o1 z2 o2 l2)) 0 (some zoom) =
    { latOffset := o1 + max 0 (min 1 ((zoom - z1) / (z2 - z1))) * (o2 - o1),
      lonOffset := max 0 (min 1 ((zoom - z1) / (z2 - z1))) * l2,
      pixelOffsetX := 0, pixelOffsetY := 0 } ∧
    Alignments.resolveDynamicOffsets
      (some (Alignments.twoBreakpointReversed z1 o1 z2 o2 l2)) 0 (some zoom) =
    Alignments.resolveDynamicOffsets
      (some (Alignments.twoBreakpointCorrection z1 o1 z2 o2 l2)) 0 (some zoom) := by
  have hzle : z1 ≤ z2 := le_of_lt hz
  have hd : 0 < z2 - z1 := by linarith
  have hdne : ¬ (z2 - z1 = 0) := by linarith
  have hz1 : (Alignments.bpEntry1 z1 o1).zoom = z1 := rfl
  have hz2 : (Alignments.bpEntry2 z2 o2 l2).zoom = z2 := rfl
  have hlast : List.getLastD
      [Alignments.bpEntry1 z1 o1, Alignments.bpEntry2 z2 o2 l2]
      (Alignments.bpEntry1 z1 o1) = Alignments.bpEntry2 z2 o2 l2 := rfl
  have hsorted : Alignments.sortByZoom
      [Alignments.bpEntry1 z1 o1, Alignments.bpEntry2 z2 o2 l2] =
      [Alignments.bpEntry1 z1 o1, Alignments.bpEntry2 z2 o2 l2] :=
    Alignments.sortByZoom_pair hzle
  constructor
  · unfold Alignments.twoBreakpointCorrection
    rcases le_or_lt zoom z1 with hc | hc
    · -- clamp to the first breakpoint
      have hscan : Alignments.scanBracket zoom
          [Alignments.bpEntry1 z1 o1, Alignments.bpEntry2 z2 o2 l2]
          (Alignments.bpEntry1 z1 o1)
          (List.getLastD
            [Alignments.bpEntry1 z1 o1, Alignments.bpEntry2 z2 o2 l2]
            (Alignments.bpEntry1 z1 o1)) =
          (Alignments.bpEntry1 z1 o1, Alignments.bpEntry1 z1 o1) := by
        rw [hlast]
        simp only [Alignments.scanBracket, hz1, ite_self, if_pos hc]
      rw [Alignments.resolveDynamicOffsets_zoom_only _ _ _ _ _ _ _
        (by norm_num) hsorted hscan]
      have hr0 : (zoom - z1) / (z2 - z1) ≤ 0 := by
        rw [div_le_iff hd]; linarith
      have ht : max 0 (min 1 ((zoom - z1) / (z2 - z1))) = 0 :=
        max_eq_left (le_trans (min_le_right _ _) hr0)
      rw [ht]
      simp only [Alignments.bpEntry1, Option.getD_some, Option.getD_none]
      norm_num
    · rcases lt_or_le zoom z2 with hc2 | hc2
      · -- bracketed between the two breakpoints
        have hscan : Alignments.scanBracket zoom
            [Alignments.bpEntry1 z1 o1, Alignments.bpEntry2 z2 o2 l2]
            (Alignments.bpEntry1 z1 o1)
            (List.getLastD
              [Alignments.bpEntry1 z1 o1, Alignments.bpEntry2 z2 o2 l2]
              (Alignments.bpEntry1 z1 o1)) =
            (Alignments.bpEntry1 z1 o1, Alignments.bpEntry2 z2 o2 l2) := by
          rw [hlast]
          simp only [Alignments.scanBracket, hz1, hz2,
            if_pos (le_of_lt hc), if_neg (not_le.mpr hc),
            if_neg (not_le.mpr hc2), if_pos (le_of_lt hc2)]
        rw [Alignments.resolveDynamicOffsets_zoom_only _ _ _ _ _ _ _
          (by norm_num) hsorted hscan]
        rw [hz1, hz2, if_neg hdne]
        simp only [Alignments.bpEntry1, Alignments.bpEntry2,
          Option.getD_some, Option.getD_none]
        norm_num
      · -- clamp to the last breakpoint
        have hscan : Alignments.scanBracket zoom
            [Alignments.bpEntry1 z1 o1, Alignments.bpEntry2 z2 o2 l2]
            (Alignments.bpEntry1 z1 o1)
            (List.getLastD
              [Alignments.bpEntry1 z1 o1, Alignments.bpEntry2 z2 o2 l2]
              (Alignments.bpEntry1 z1 o1)) =
            (Alignments.bpEntry2 z2 o2 l2, Alignments.bpEntry2 z2 o2 l2) := by
          rw [hlast]
          simp only [Alignments.scanBracket, hz1, hz2,
            if_pos (le_of_lt hc), if_neg (not_le.mpr hc), if_pos hc2, ite_self]
        rw [Alignments.resolveDynamicOffsets_zoom_only _ _ _ _ _ _ _
          (by norm_num) hsorted hscan]
        have hr1 : 1 ≤ (zoom - z1) / (z2 - z1) := by
          rw [le_div_iff hd]; linarith
        have ht : max 0 (min 1 ((zoom - z1) / (z2 - z1))) = 1 := by
          rw [min_eq_left hr1, max_eq_right zero_le_one]
        rw [ht]
        simp only [Alignments.bpEntry2, Option.getD_some, Option.getD_none]
        norm_num
  · unfold Alignments.twoBreakpointCorrection Alignments.twoBreakpointReversed
    have hrev : Alignments.sortByZoom
        [Alignments.bpEntry2 z2 o2 l2, Alignments.bpEntry1 z1 o1] =
        [Alignments.bpEntry1 z1 o1, Alignments.bpEntry2 z2 o2 l2] :=
      Alignments.sortByZoom_pair_rev (not_le.mpr hz)
    exact Alignments.resolveDynamicOffsets_sort_congr _ _ 0 zoom
      (by norm_num) (by norm_num) (by rw [hrev, hsorted])

/-- C4 witness: breakpoints at zoom 2 (offset 10) and zoom 6 (offset 20)
resolve to 15 at zoom 4, clamp to 10 at zoom 1 and to 20 at zoom 7. -/
theorem C4_zoom_interpolation_witness :
    (2 : ℚ) < 6 ∧
    Alignments.resolveDynamicOffsets
      (some (Alignments.twoBreakpointCorrection 2 10 6 20 0)) 0 (some 4) =
      { latOffset := 15, lonOffset := 0, pixelOffsetX := 0, pixelOffsetY := 0 } ∧
    Alignments.resolveDynamicOffsets
      (some (Alignments.twoBreakpointCorrection 2 10 6 20 0)) 0 (some 1) =
      { latOffset := 10, lonOffset := 0, pixelOffsetX := 0, pixelOffsetY := 0 } ∧
    Alignments.resolveDynamicOffsets
      (some (Alignments.twoBreakpointCorrection 2 10 6 20 0)) 0 (some 7) =
      { latOffset := 20, lonOffset := 0, pixelOffsetX := 0, pixelOffsetY := 0 } := by
  refine ⟨by norm_num, ?_, ?_, ?_⟩
  · rw [(C4_zoom_interpolation 2 10 6 20 0 4 (by norm_num)).1]
    norm_num [min_def, max_def]
  · rw [(C4_zoom_interpolation 2 10 6 20 0 1 (by norm_num)).1]
    norm_num [min_def, max_def]
  · rw [(C4_zoom_interpolation 2 10 6 20 0 7 (by norm_num)).1]
    norm_num [min_def, max_def]

namespace Alignments

/-- When the correction has no latitude bands, the resolved offsets do not
depend on the query latitude. -/
theorem resolveDynamicOffsets_lat_irrel (correction : Option AlignmentCorrection)
    (zoom : Option ℚ) (lat lat' : ℚ)
    (hb : ((correction.bind AlignmentCorrection.dynamic).bind
      AlignmentDynamic.lat_bands).getD [] = []) :
    resolveDynamicOffsets correction lat zoom =
    resolveDynamicOffsets correction lat' zoom := by
  simp only [resolveDynamicOffsets, hb, List.foldl_nil]

end Alignments

/-- A correction consisting only of one latitude band [0, 5] adding 10
degrees of latitude offset. -/
def bandOnlyCorrection : Alignments.AlignmentCorrection where
  dynamic := some
    { lat_bands := some
        [{ min_lat := 0, max_lat := 5, lat_offset_deg := some 10 }] }

/-- The C3 counterexample table: the band-only correction on every dataset. -/
def bandOnlyTable : Alignments.AlignmentDictionary := fun _ =>
  some bandOnlyCorrection

/-- C3 counterexample: with a correction consisting of a latitude band
[0, 5] with offset 10, the forward correction maps latitude 3 to 13, but
the inverse of 13 resolves the bands at the corrected latitude 13 (outside
the band) and returns 13, not the original 3: the claimed round trip fails
even though the scale is 1 (nonzero) and the zoom is the same on both legs. -/
theorem C3_counterexample :
    Alignments.applyAlignmentCorrectionForward bandOnlyTable
      { datasetId := "d", lat := 3, lon := 0, zoom := none } =
      { lat := 13, lon := 0, pixelOffsetX := 0, pixelOffsetY := 0 } ∧
    Alignments.applyAlignmentCorrectionInverse bandOnlyTable
      { datasetId := "d", lat := 13, lon := 0, zoom := none } =
      { lat := 13, lon := 0, pixelOffsetX := 0, pixelOffsetY := 0 } ∧
    (13 : ℚ) ≠ 3 := by
  refine ⟨?_, ?_, by norm_num⟩
  · simp only [Alignments.applyAlignmentCorrectionForward,
      Alignments.getAlignmentCorrection, bandOnlyTable]
    rw [Alignments.resolveDynamicOffsets_no_zoom]
    norm_num [bandOnlyCorrection, List.filter_cons, List.filter_nil]
  · simp only [Alignments.applyAlignmentCorrectionInverse,
      Alignments.getAlignmentCorrection, bandOnlyTable]
    rw [Alignments.resolveDynamicOffsets_no_zoom]
    norm_num [bandOnlyCorrection, List.filter_cons, List.filter_nil]

/-- C3 (amended): the forward correction returns lat' = lat*scale +
lat_offset and lon' = lon*scale + lon_offset with the pixel offset carried
separately, and, provided the correction record has no latitude bands (so
that the offsets resolved at the corrected latitude on the inverse leg
agree with the forward leg), nonzero scales and the same zoom on both legs,
the inverse exactly restores (lat, lon) and its pixel offsets are the
negation of the forward's. -/
theorem C3_alignment_inverse (data : Alignments.AlignmentDictionary)
    (id : String) (lat lon : ℚ) (zoom : Option ℚ)
    (hb : (((data id).bind Alignments.AlignmentCorrection.dynamic).bind
      Alignments.AlignmentDynamic.lat_bands).getD [] = [])
    (hs1 : ((data id).bind Alignments.AlignmentCorrection.lat_scale).getD 1 ≠ 0)
    (hs2 : ((data id).bind Alignments.AlignmentCorrection.lon_scale).getD 1 ≠ 0) :
    Alignments.applyAlignmentCorrectionForward data
      { datasetId := id, lat := lat, lon := lon, zoom := zoom } =
      { lat := lat * ((data id).bind Alignments.AlignmentCorrection.lat_scale).getD 1 +
          (Alignments.resolveDynamicOffsets (data id) lat zoom).latOffset,
        lon := lon * ((data id).bind Alignments.AlignmentCorrection.lon_scale).getD 1 +
          (Alignments.resolveDynamicOffsets (data id) lat zoom).lonOffset,
        pixelOffsetX := (Alignments.resolveDynamicOffsets (data id) lat zoom).pixelOffsetX,
        pixelOffsetY := (Alignments.resolveDynamicOffsets (data id) lat zoom).pixelOffsetY } ∧
    Alignments.applyAlignmentCorrectionInverse data
      { datasetId := id,
        lat := (Alignments.applyAlignmentCorrectionForward data
          { datasetId := id, lat := lat, lon := lon, zoom := zoom }).lat,
        lon := (Alignments.applyAlignmentCorrectionForward data
          { datasetId := id, lat := lat, lon := lon, zoom := zoom }).lon,
        zoom := zoom } =
      { lat := lat, lon := lon,
        pixelOffsetX := -(Alignments.applyAlignmentCorrectionForward data
          { datasetId := id, lat := lat, lon := lon, zoom := zoom }).pixelOffsetX,
        pixelOffsetY := -(Alignments.applyAlignmentCorrectionForward data
          { datasetId := id, lat := lat, lon := lon, zoom := zoom }).pixelOffsetY } := by
  constructor
  · rfl
  · have hirr := Alignments.resolveDynamicOffsets_lat_irrel (data id) zoom
      (lat * ((data id).bind Alignments.AlignmentCorrection.lat_scale).getD 1 +
        (Alignments.resolveDynamicOffsets (data id) lat zoom).latOffset) lat hb
    unfold Alignments.applyAlignmentCorrectionForward
      Alignments.applyAlignmentCorrectionInverse Alignments.getAlignmentCorrection
    simp only [hirr, if_neg hs1, if_neg hs2]
    congr 1
    · field_simp
    · field_simp

/-- A correction with scales 3 and 4 and static offsets, no bands. -/
def scaleOnlyTable : Alignments.AlignmentDictionary := fun _ =>
  some { lat_offset_deg := some 2, lon_offset_deg := some 5,
         lat_scale := some 3, lon_scale := some 4 }

/-- C3 witness: with scales 3/4 and offsets 2/5 the inverse restores the
point (7, 11) and negates the (zero) pixel offsets. -/
theorem C3_alignment_inverse_witness :
    Alignments.applyAlignmentCorrectionInverse scaleOnlyTable
      { datasetId := "d",
        lat := (Alignments.applyAlignmentCorrectionForward scaleOnlyTable
          { datasetId := "d", lat := 7, lon := 11, zoom := none }).lat,
        lon := (Alignments.applyAlignmentCorrectionForward scaleOnlyTable
          { datasetId := "d", lat := 7, lon := 11, zoom := none }).lon,
        zoom := none } =
      { lat := 7, lon := 11,
        pixelOffsetX := -(Alignments.applyAlignmentCorrectionForward scaleOnlyTable
          { datasetId := "d", lat := 7, lon := 11, zoom := none }).pixelOffsetX,
        pixelOffsetY := -(Alignments.applyAlignmentCorrectionForward scaleOnlyTable
          { datasetId := "d", lat := 7, lon := 11, zoom := none }).pixelOffsetY } :=
  (C3_alignment_inverse scaleOnlyTable "d" 7 11 none rfl
    (by norm_num [scaleOnlyTable]) (by norm_num [scaleOnlyTable])).2

namespace Datasets

/-! Embedding of `app/lib/planetary/datasets.ts` (the registry fields the
compatibility and tiling logic consumes). -/

inductive TilingScheme where
  | wmts
  | xyz
deriving DecidableEq, Repr

inductive YAxisOrientation where
  | northDown
  | southUp
deriving DecidableEq, Repr

structure DatasetTilingMetadata where
  scheme : TilingScheme
  yAxis : YAxisOrientation
  tileSize : ℕ
  minZoom : ℕ
  maxZoom : ℕ
deriving DecidableEq, Repr

structure DatasetMetadata where
  id : String
  body : Constants.PlanetaryBodyKey
  title : String
  template : String
  compatibilityKey : String
  tiling : DatasetTilingMetadata
deriving DecidableEq, Repr

def bodyKeyString : Constants.PlanetaryBodyKey → String
  | .moon => "moon"
  | .mars => "mars"
  | .mercury => "mercury"
  | .ceres => "ceres"
  | .vesta => "vesta"

def TREK_COMPAT_KEY (body : Constants.PlanetaryBodyKey) : String :=
  bodyKeyString body ++ "-simplecyl-256"

def trekTiling (minZoom maxZoom : ℕ) : DatasetTilingMetadata :=
  { scheme := .wmts, yAxis := .northDown, tileSize := 256,
    minZoom := minZoom, maxZoom := maxZoom }

def SOLAR_SYSTEM_DATASETS : List DatasetMetadata :=
  [{ id := "moon:lro_wac_global", body := .moon, title := "LRO WAC Global Mosaic",
     template := "https://trek.nasa.gov/tiles/Moon/EQ/LRO_WAC_Mosaic_Global_303ppd_v02/1.0.0/default/default028mm/{z}/{row}/{col}.jpg",
     compatibilityKey := TREK_COMPAT_KEY .moon, tiling := trekTiling 0 6 },
   { id := "moon:lro_nac_apollo", body := .moon, title := "LRO NAC Apollo Landing Sites",
     template := "https://trek.nasa.gov/tiles/Moon/EQ/LRO_NAC_ApolloLandingSites_100cm/1.0.0/default/default028mm/{z}/{row}/{col}.jpg",
     compatibilityKey := TREK_COMPAT_KEY .moon, tiling := trekTiling 2 12 },
   { id := "moon:lro_lola_elevation", body := .moon, title := "LRO LOLA Elevation (Colorized)",
     template := "https://trek.nasa.gov/tiles/Moon/EQ/LRO_LOLA_ClrShade_Global_128ppd_v04/1.0.0/default/default028mm/{z}/{row}/{col}.png",
     compatibilityKey := TREK_COMPAT_KEY .moon, tiling := trekTiling 0 9 },
   { id := "moon:lro_diviner_rock", body := .moon, title := "LRO Diviner Rock Abundance",
     template := "https://trek.nasa.gov/tiles/Moon/EQ/LRO_Diviner_Derived_RockAbundance_Global_128ppd_v01/1.0.0/default/default028mm/{z}/{row}/{col}.png",
     compatibilityKey := TREK_COMPAT_KEY .moon, tiling := trekTiling 0 8 },
   { id := "moon:grail_gravity", body := .moon, title := "GRAIL Free-air Gravity",
     template := "https://trek.nasa.gov/tiles/Moon/EQ/GRAIL_LGRS_Freair_Gravity_Global_128ppd_v03/1.0.0/default/default028mm/{z}/{row}/{col}.png",
     compatibilityKey := TREK_COMPAT_KEY .moon, tiling := trekTiling 0 8 },
   { id := "mars:mars_mgs_mola", body := .mars, title := "MGS MOLA Colorized Shaded Relief",
     template := "https://trek.nasa.gov/tiles/Mars/EQ/Mars_MGS_MOLA_ClrShade_merge_global_463m/1.0.0/default/default028mm/{z}/{row}/{col}.jpg",
     compatibilityKey := TREK_COMPAT_KEY .mars, tiling := trekTiling 0 8 },
   { id := "mars:mars_viking_mosaic", body := .mars, title := "Viking MDIM 2.1 Global Mosaic",
     template := "https://trek.nasa.gov/tiles/Mars/EQ/Mars_Viking_MDIM21_ClrMosaic_global_232m/1.0.0/default/default028mm/{z}/{row}/{col}.jpg",
     compatibilityKey := TREK_COMPAT_KEY .mars, tiling := trekTiling 0 8 },
   { id := "mars:mars_hirise", body := .mars, title := "HiRISE High Resolution Imagery",
     template := "https://trek.nasa.gov/tiles/Mars/EQ/Mars_HiRISE_Mosaic_Global_256ppd/1.0.0/default/default028mm/{z}/{row}/{col}.jpg",
     compatibilityKey := TREK_COMPAT_KEY .mars, tiling := trekTiling 0 12 },
   { id := "mars:mars_ctx_mosaic", body := .mars, title := "MRO CTX Global Mosaic",
     template := "https://trek.nasa.gov/tiles/Mars/EQ/Mars_MRO_CTX_mosaic_beta01_200ppd/1.0.0/default/default028mm/{z}/{row}/{col}.jpg",
     compatibilityKey := TREK_COMPAT_KEY .mars, tiling := trekTiling 0 9 },
   { id := "mars:mars_thermal_inertia", body := .mars, title := "TES Thermal Inertia",
     template := "https://trek.nasa.gov/tiles/Mars/EQ/Mars_MGS_TES_ThermalInertia_mosaic_global_32ppd_v02/1.0.0/default/default028mm/{z}/{row}/{col}.png",
     compatibilityKey := TREK_COMPAT_KEY .mars, tiling := trekTiling 0 7 },
   { id := "mercury:messenger_mdis_basemap", body := .mercury, title := "MESSENGER MDIS Basemap",
     template := "https://trek.nasa.gov/tiles/Mercury/EQ/Mercury_MESSENGER_MDIS_Basemap_EnhancedColor_Mosaic_Global_665m/1.0.0/default/default028mm/{z}/{row}/{col}.jpg",
     compatibilityKey := TREK_COMPAT_KEY .mercury, tiling := trekTiling 1 7 },
   { id := "mercury:messenger_global_mosaic", body := .mercury, title := "MESSENGER Global Mosaic",
     template := "https://trek.nasa.gov/tiles/Mercury/EQ/MESSENGER_MDIS_Mosaic_Global_166m_v02/1.0.0/default/default028mm/{z}/{row}/{col}.jpg",
     compatibilityKey := TREK_COMPAT_KEY .mercury, tiling := trekTiling 1 8 },
   { id := "mercury:messenger_bdr", body := .mercury, title := "MESSENGER BDR Mosaic",
     template := "https://trek.nasa.gov/tiles/Mercury/EQ/MESSENGER_MDIS_BDR_Mosaic_Global_166m_v01/1.0.0/default/default028mm/{z}/{row}/{col}.jpg",
     compatibilityKey := TREK_COMPAT_KEY .mercury, tiling := trekTiling 1 8 },
   { id := "mercury:messenger_elevation", body := .mercury, title := "MLA Elevation Model",
     template := "https://trek.nasa.gov/tiles/Mercury/EQ/MESSENGER_MLA_DEM_Global_665m_v01/1.0.0/default/default028mm/{z}/{row}/{col}.png",
     compatibilityKey := TREK_COMPAT_KEY .mercury, tiling := trekTiling 1 7 },
   { id := "mercury:messenger_slope", body := .mercury, title := "MLA Slope Map",
     template := "https://trek.nasa.gov/tiles/Mercury/EQ/MESSENGER_MLA_Slopes_Global_665m_v01/1.0.0/default/default028mm/{z}/{row}/{col}.png",
     compatibilityKey := TREK_COMPAT_KEY .mercury, tiling := trekTiling 1 7 }]

def getDatasetById (id : String) : Option DatasetMetadata :=
  SOLAR_SYSTEM_DATASETS.find? (fun dataset => dataset.id == id)

def areDatasetsCompatible (primaryId secondaryId : String) : Bool :=
  match getDatasetById primaryId, getDatasetById secondaryId with
  | some primary, some secondary =>
    primary.compatibilityKey == secondary.compatibilityKey
  | _, _ => false

end Datasets

/-- C10: areDatasetsCompatible is symmetric, every id present in the
registry is compatible with itself, and the function returns false
whenever either id is not in the registry. -/
theorem C10_compatibility :
    (∀ a b, Datasets.areDatasetsCompatible a b =
      Datasets.areDatasetsCompatible b a) ∧
    (∀ id, (Datasets.getDatasetById id).isSome →
      Datasets.areDatasetsCompatible id id = true) ∧
    (∀ a b, Datasets.getDatasetById a = none ∨ Datasets.getDatasetById b = none →
      Datasets.areDatasetsCompatible a b = false) := by
  refine ⟨?_, ?_, ?_⟩
  · intro a b
    unfold Datasets.areDatasetsCompatible
    rcases ha : Datasets.getDatasetById a with _ | p <;>
      rcases hb : Datasets.getDatasetById b with _ | q <;> simp
    by_cases hpq : p.compatibilityKey = q.compatibilityKey
    · simp [hpq]
    · simp only [hpq, beq_iff_eq, if_false]
      rw [eq_comm] at hpq
      simp [hpq]
  · intro id h
    unfold Datasets.areDatasetsCompatible
    rcases hd : Datasets.getDatasetById id with _ | p
    · rw [hd] at h; simp at h
    · simp
  · intro a b h
    unfold Datasets.areDatasetsCompatible
    rcases h with h | h
    · rw [h]
    · rw [h]
      rcases Datasets.getDatasetById a with _ | p <;> rfl

/-- C10 witness: the Moon base layer is registered and self-compatible. -/
theorem C10_compatibility_witness :
    Datasets.areDatasetsCompatible "moon:lro_wac_global" "moon:lro_wac_global" = true :=
  C10_compatibility.2.1 "moon:lro_wac_global" (by decide)

/-- Truncated remainder of a negated argument flips sign. -/
theorem tmod_neg_arg (a m : ℤ) : (-a).tmod m = -(a.tmod m) := by
  rw [Int.tmod_def, Int.tmod_def, Int.neg_tdiv]
  ring

/-- Lower bound of the truncated remainder for a positive modulus. -/
theorem tmod_lower (x m : ℤ) (hm : 0 < m) : -m < x.tmod m := by
  rcases le_or_lt 0 x with hx | hx
  · have := Int.tmod_nonneg m hx
    linarith
  · have h1 : x.tmod m = -((-x).tmod m) := by
      rw [tmod_neg_arg, neg_neg]
  -- the remainder of -x is below m, so x's is above -m
    have h2 : (-x).tmod m < m := Int.tmod_lt_of_pos _ hm
    rw [h1]
    linarith

/-- The JavaScript wrap `((x % m) + m) % m` (with `%` the truncated
remainder) equals the Euclidean remainder, for a positive modulus. -/
theorem jsWrapInt_eq_emod (x m : ℤ) (hm : 0 < m) :
    (x.tmod m + m).tmod m = x % m := by
  have hnn : 0 ≤ x.tmod m + m := by linarith [tmod_lower x m hm]
  rw [Int.tmod_eq_emod hnn (le_of_lt hm)]
  have h1 : (x.tmod m + m) % m = x.tmod m % m := by
    rw [show x.tmod m + m = x.tmod m + m * 1 by ring, Int.add_mul_emod_self_left]
  have h2 : x.tmod m % m = x % m := by
    rw [show x.tmod m = x + m * (-(x.tdiv m)) by rw [Int.tmod_def]; ring,
      Int.add_mul_emod_self_left]
  rw [h1, h2]

/-- Wrapping is invariant under adding one full period. -/
theorem jsWrapInt_add_period (x m : ℤ) (hm : 0 < m) :
    ((x + m).tmod m + m).tmod m = (x.tmod m + m).tmod m := by
  rw [jsWrapInt_eq_emod _ _ hm, jsWrapInt_eq_emod _ _ hm,
    show x + m = x + m * 1 by ring, Int.add_mul_emod_self_left]

namespace TileViewer

/-! Embedding of the tile-address logic of the viewer component
(`app/components/TileViewer.tsx`): the two `getTileUrl` closures, the
body tables, and the nearest-feature search. -/

/-- Replacement of the first occurrence of a pattern, as JavaScript's
`String.prototype.replace` with a string pattern does. -/
def replaceFirstAux (pat rep : List Char) : List Char → List Char
  | [] => []
  | c :: rest =>
    if pat.isPrefixOf (c :: rest) then rep ++ (c :: rest).drop pat.length
    else c :: replaceFirstAux pat rep rest

def replaceFirst (s pattern replacement : String) : String :=
  ⟨replaceFirstAux pattern.data replacement.data s.data⟩

/-- Replacement of every occurrence of a (nonempty) pattern, as
JavaScript's `String.prototype.replace` with a global regexp does; the
fuel argument (instantiated with the string length) only drives the
structural recursion. -/
def replaceAllAux (pat rep : List Char) : ℕ → List Char → List Char
  | 0, l => l
  | _, [] => []
  | fuel + 1, c :: rest =>
    if pat.isPrefixOf (c :: rest) ∧ ¬ pat.isEmpty then
      rep ++ replaceAllAux pat rep fuel ((c :: rest).drop pat.length)
    else c :: replaceAllAux pat rep fuel rest

def replaceAll (s pattern replacement : String) : String :=
  ⟨replaceAllAux pattern.data replacement.data (s.data.length + 1) s.data⟩

/-- Substring test, as JavaScript's `String.prototype.includes`. -/
def containsSubstringAux (pat : List Char) : List Char → Bool
  | [] => pat.isEmpty
  | c :: rest => pat.isPrefixOf (c :: rest) || containsSubstringAux pat rest

def containsSubstring (s pattern : String) : Bool :=
  containsSubstringAux pattern.data s.data

/-- The `getTileUrl` closure of the inline tile source (first viewer
effect): wraps the column horizontally, rejects off-grid rows, and
substitutes the first occurrence of each placeholder. -/
def getTileUrl (template : String) (minZoom : ℕ) (level : ℕ) (x y : ℤ) :
    String :=
  let maxTiles : ℤ := 2 ^ level
  let xWrapped := (x.tmod maxTiles + maxTiles).tmod maxTiles
  if y < 0 ∨ maxTiles ≤ y then ""
  else
    let z := level + minZoom
    replaceFirst
      (replaceFirst
        (replaceFirst
          (replaceFirst
            (replaceFirst template "{z}" (toString z))
            "{x}" (toString xWrapped))
          "{y}" (toString y))
        "{col}" (toString xWrapped))
      "{row}" (toString y)

/-- The `getTileUrl` closure of the backend-config tile source (second
viewer effect): global placeholder substitution, horizontal wrap, off-grid
row rejection, and a row flip applied when the template's URL contains the
NASA GIBS hostname substring. -/
def getTileUrlBackend (template : String) (minZoom : ℕ) (level : ℕ)
    (x y : ℤ) : String :=
  let z := level + minZoom
  let maxTiles : ℤ := 2 ^ level
  let wrappedX := (x.tmod maxTiles + maxTiles).tmod maxTiles
  if y < 0 ∨ maxTiles ≤ y then ""
  else
    let finalY : ℤ :=
      if containsSubstring template "gibs.earthdata.nasa.gov" then
        2 ^ z - 1 - y
      else y
    let finalX := wrappedX
    replaceAll
      (replaceAll
        (replaceAll
          (replaceAll
            (replaceAll template "{z}" (toString z))
            "{row}" (toString finalY))
          "{col}" (toString finalX))
        "{x}" (toString finalX))
      "{y}" (toString finalY)

end TileViewer

/-- C6: for every template, zoom base, pyramid level, column x, and row y,
both tile-address closures map column x + 2^level to the same address as
column x (horizontal wraparound), while y = -1 and y = 2^level both yield
no tile (the empty address; there is no vertical wrap). -/
theorem C6_tile_wrap :
    (∀ (template : String) (minZoom level : ℕ) (x y : ℤ),
      TileViewer.getTileUrl template minZoom level (x + 2 ^ level) y =
      TileViewer.getTileUrl template minZoom level x y) ∧
    (∀ (template : String) (minZoom level : ℕ) (x y : ℤ),
      TileViewer.getTileUrlBackend template minZoom level (x + 2 ^ level) y =
      TileViewer.getTileUrlBackend template minZoom level x y) ∧
    (∀ (template : String) (minZoom level : ℕ) (x : ℤ),
      TileViewer.getTileUrl template minZoom level x (-1) = "" ∧
      TileViewer.getTileUrl template minZoom level x (2 ^ level) = "" ∧
      TileViewer.getTileUrlBackend template minZoom level x (-1) = "" ∧
      TileViewer.getTileUrlBackend template minZoom level x (2 ^ level) = "") := by
  have hpow : ∀ level : ℕ, (0 : ℤ) < 2 ^ level := fun level => by positivity
  refine ⟨?_, ?_, ?_⟩
  · intro template minZoom level x y
    simp only [TileViewer.getTileUrl, jsWrapInt_add_period x (2 ^ level) (hpow level)]
  · intro template minZoom level x y
    simp only [TileViewer.getTileUrlBackend,
      jsWrapInt_add_period x (2 ^ level) (hpow level)]
  · intro template minZoom level x
    refine ⟨?_, ?_, ?_, ?_⟩ <;>
      simp only [TileViewer.getTileUrl, TileViewer.getTileUrlBackend] <;>
      rw [if_pos]
    · left; norm_num
    · right; exact le_refl _
    · left; norm_num
    · right; exact le_refl _

/-- C7: every dataset in the registry declares yAxis north-down, yet the
backend tile-address closure flips the row for (level 1, y 0) to row 1
when and only when the template URL contains the GIBS hostname substring:
the flip is decided by URL pattern-matching, not by the declared yAxis
metadata (which the closure never consults). -/
theorem C7_yaxis_url_sniffing :
    (Datasets.SOLAR_SYSTEM_DATASETS.all
      (fun d => d.tiling.yAxis == Datasets.YAxisOrientation.northDown)) = true ∧
    TileViewer.getTileUrlBackend
      "https://gibs.earthdata.nasa.gov/wmts/{z}/{y}/{x}.jpg" 0 1 0 0 =
      "https://gibs.earthdata.nasa.gov/wmts/1/1/0.jpg" ∧
    TileViewer.getTileUrlBackend
      "https://example.org/{z}/{y}/{x}.jpg" 0 1 0 0 =
      "https://example.org/1/0/0.jpg" := by
  refine ⟨by decide, ?_, ?_⟩ <;> rfl

namespace JSModel

/-! A model of JavaScript IEEE number semantics restricted to the special
values the error-handling claim is about: every finite double is
represented by a rational, plus NaN and the two infinities.  Only the
operations appearing on the latitude-clamp and longitude-wrap paths are
modelled. -/

inductive JSNum where
  | num (q : ℚ)
  | nan
  | posInf
  | negInf
deriving DecidableEq, Repr

def isFinite : JSNum → Bool
  | .num _ => true
  | _ => false

def neg : JSNum → JSNum
  | .num q => .num (-q)
  | .nan => .nan
  | .posInf => .negInf
  | .negInf => .posInf

def add : JSNum → JSNum → JSNum
  | .nan, _ => .nan
  | _, .nan => .nan
  | .posInf, .negInf => .nan
  | .negInf, .posInf => .nan
  | .posInf, _ => .posInf
  | _, .posInf => .posInf
  | .negInf, _ => .negInf
  | _, .negInf => .negInf
  | .num a, .num b => .num (a + b)

def sub (a b : JSNum) : JSNum := add a (neg b)

/-- JavaScript `%`: NaN for a NaN, infinite dividend or zero divisor;
the dividend unchanged for an infinite divisor; truncated remainder
otherwise. -/
def jsModN : JSNum → JSNum → JSNum
  | .nan, _ => .nan
  | _, .nan => .nan
  | .posInf, _ => .nan
  | .negInf, _ => .nan
  | .num a, .num n => if n = 0 then .nan else .num (jsMod a n)
  | .num a, .posInf => .num a
  | .num a, .negInf => .num a

def divN : JSNum → JSNum → JSNum
  | .nan, _ => .nan
  | _, .nan => .nan
  | .posInf, .posInf => .nan
  | .posInf, .negInf => .nan
  | .negInf, .posInf => .nan
  | .negInf, .negInf => .nan
  | .posInf, .num b => if b < 0 then .negInf else .posInf
  | .negInf, .num b => if b < 0 then .posInf else .negInf
  | .num _, .posInf => .num 0
  | .num _, .negInf => .num 0
  | .num a, .num b =>
    if b = 0 then (if a = 0 then .nan else if a < 0 then .negInf else .posInf)
    else .num (a / b)

def minN : JSNum → JSNum → JSNum
  | .nan, _ => .nan
  | _, .nan => .nan
  | .negInf, _ => .negInf
  | _, .negInf => .negInf
  | .posInf, b => b
  | a, .posInf => a
  | .num a, .num b => .num (min a b)

def maxN : JSNum → JSNum → JSNum
  | .nan, _ => .nan
  | _, .nan => .nan
  | .posInf, _ => .posInf
  | _, .posInf => .posInf
  | .negInf, b => b
  | a, .negInf => a
  | .num a, .num b => .num (max a b)

def ltN : JSNum → JSNum → Bool
  | .nan, _ => false
  | _, .nan => false
  | .negInf, .negInf => false
  | .negInf, _ => true
  | _, .negInf => false
  | .posInf, _ => false
  | .num _, .posInf => true
  | .num a, .num b => decide (a < b)

/-- JavaScript `===` on numbers: NaN compares unequal to everything. -/
def eqN : JSNum → JSNum → Bool
  | .nan, _ => false
  | _, .nan => false
  | .posInf, .posInf => true
  | .negInf, .negInf => true
  | .num a, .num b => decide (a = b)
  | _, _ => false

/-- geodesy.ts `wrapLongitude180` on JavaScript numbers (no finiteness
guard). -/
def wrapLongitude180G (value : JSNum) : JSNum :=
  let wrapped := sub
    (jsModN (add (jsModN (add value (.num 180)) (.num 360)) (.num 360)) (.num 360))
    (.num 180)
  if eqN wrapped (.num (-180)) then .num 180 else wrapped

/-- geodesy.ts `wrapLongitude360` on JavaScript numbers. -/
def wrapLongitude360G (value : JSNum) : JSNum :=
  jsModN (add (jsModN value (.num 360)) (.num 360)) (.num 360)

/-- coordinates.ts `wrapLongitude360` on JavaScript numbers: the
`Number.isFinite` guard returns the non-finite input unchanged. -/
def wrapLongitude360C (value : JSNum) : JSNum :=
  if ¬ isFinite value then value
  else jsModN (add (jsModN value (.num 360)) (.num 360)) (.num 360)

/-- coordinates.ts `wrapLongitude180` on JavaScript numbers. -/
def wrapLongitude180C (value : JSNum) : JSNum :=
  if ¬ isFinite value then value
  else sub
    (jsModN (add (jsModN (add value (.num 180)) (.num 360)) (.num 360)) (.num 360))
    (.num 180)

/-- The east-180 to east-360 conversion step of `latLonToNormalized`
(`convertLongitude lonRelative "east-180" "east-360"`), on JavaScript
numbers. -/
def convertE180toE360 (value : JSNum) : JSNum :=
  let east180 := wrapLongitude180G value
  let east180' := wrapLongitude180G east180
  let adjusted := if ltN east180' (.num 0) then add east180' (.num 360) else east180'
  wrapLongitude360G adjusted

/-- geodesy.ts `latLonToNormalized` with corrections disabled, on
JavaScript numbers, returning the (u, v) pair. -/
def latLonToNormalizedJS (latDeg lonDeg pm cm : JSNum) : JSNum × JSNum :=
  let lonCanonical := wrapLongitude180G lonDeg
  let latClamped := maxN (.num (-90)) (minN (.num 90) latDeg)
  let lonPrimeAdjusted := wrapLongitude180G (sub lonCanonical pm)
  let lonRelative := wrapLongitude180G (sub lonPrimeAdjusted cm)
  let lon360 := convertE180toE360 lonRelative
  (divN lon360 (.num 360), divN (sub (.num 90) latClamped) (.num 180))

end JSModel

/-- C9: the claim fails on the code.  A finite out-of-range latitude is
clamped (100 becomes 90), but a NaN latitude survives Math.max/Math.min
unchanged, a NaN or infinite longitude is not degraded to 0 (geodesy's
unguarded wrap yields NaN; coordinates.ts's guard returns the non-finite
value itself), and the resulting NaN reaches the normalized u and v
coordinates. -/
theorem C9_nonfinite_propagation :
    JSModel.maxN (.num (-90)) (JSModel.minN (.num 90) .nan) = .nan ∧
    JSModel.maxN (.num (-90)) (JSModel.minN (.num 90) (.num 100)) = .num 90 ∧
    JSModel.wrapLongitude180G .nan = .nan ∧
    JSModel.wrapLongitude180G .posInf = .nan ∧
    JSModel.wrapLongitude360C .nan = .nan ∧
    JSModel.wrapLongitude360C .posInf = .posInf ∧
    (JSModel.latLonToNormalizedJS .nan (.num 0) (.num 0) (.num 0)).2 = .nan ∧
    (JSModel.latLonToNormalizedJS (.num 0) .nan (.num 0) (.num 0)).1 = .nan := by
  refine ⟨rfl, ?_, rfl, rfl, rfl, rfl, rfl, rfl⟩
  norm_num [JSModel.maxN, JSModel.minN, min_def, max_def]

namespace TileViewer

inductive BodyKey where
  | earth
  | milky_way
  | moon
  | mars
  | mercury
  | ceres
  | vesta
  | unknown
deriving DecidableEq, Repr

def BODY_LONGITUDE_CONVENTIONS : BodyKey → Coordinates.LongitudeConvention
  | .earth => ⟨.east, .d360⟩
  | .milky_way => ⟨.east, .d360⟩
  | .moon => ⟨.east, .d360⟩
  | .mars => ⟨.east, .d360⟩
  | .mercury => ⟨.east, .d360⟩
  | .ceres => ⟨.east, .d360⟩
  | .vesta => ⟨.east, .d360⟩
  | .unknown => ⟨.east, .d360⟩

def BODY_RADII_KM : BodyKey → ℚ
  | .earth => 6371
  | .milky_way => 6371
  | .moon => 1737.4
  | .mars => 3389.5
  | .mercury => 2439.7
  | .ceres => 469.7
  | .vesta => 262.7
  | .unknown => 6371

structure PlanetFeature where
  name : String
  lat : ℚ
  lon : ℚ
  diamkm : Option ℚ := none
deriving DecidableEq, Repr

/-- JavaScript's `Math.atan2` (signed zeros not modelled). -/
noncomputable def jsAtan2 (y x : ℝ) : ℝ :=
  if 0 < x then Real.arctan (y / x)
  else if x < 0 then
    (if 0 ≤ y then Real.arctan (y / x) + Real.pi
     else Real.arctan (y / x) - Real.pi)
  else
    (if 0 < y then Real.pi / 2 else if y < 0 then -(Real.pi / 2) else 0)

/-- The haversine `calculateDistance` closure of `handleReverseSearch`:
canonicalizes both longitudes with the body's convention and uses the
body's own radius from `BODY_RADII_KM`. -/
noncomputable def calculateDistance (body : BodyKey)
    (lat1 lon1 lat2 lon2 : ℚ) : ℝ :=
  let R : ℝ := ((BODY_RADII_KM body : ℚ) : ℝ)
  let lon1Canonical :=
    Coordinates.normalizeLongitude lon1 (BODY_LONGITUDE_CONVENTIONS body)
  let lon2Canonical :=
    Coordinates.normalizeLongitude lon2 (BODY_LONGITUDE_CONVENTIONS body)
  let dLat : ℝ := ((lat2 - lat1 : ℚ) : ℝ) * Real.pi / 180
  let dLon : ℝ := ((lon2Canonical - lon1Canonical : ℚ) : ℝ) * Real.pi / 180
  let a : ℝ := Real.sin (dLat / 2) * Real.sin (dLat / 2) +
    Real.cos ((lat1 : ℝ) * Real.pi / 180) * Real.cos ((lat2 : ℝ) * Real.pi / 180) *
      (Real.sin (dLon / 2) * Real.sin (dLon / 2))
  let c : ℝ := 2 * jsAtan2 (Real.sqrt a) (Real.sqrt (1 - a))
  R * c

open Classical in
/-- The scan loop of `handleReverseSearch`: keeps the first feature
attaining the strictly smallest distance seen so far. -/
noncomputable def nearestGo (body : BodyKey) (lat lon : ℚ) :
    List PlanetFeature → PlanetFeature × ℝ → PlanetFeature × ℝ
  | [], best => best
  | feature :: rest, best =>
    let d := calculateDistance body lat lon feature.lat feature.lon
    if d < best.2 then nearestGo body lat lon rest (feature, d)
    else nearestGo body lat lon rest best

/-- The nearest-feature search of `handleReverseSearch` (which returns
early when no features are loaded): starts from the first feature and
scans the whole list. -/
noncomputable def findNearest (body : BodyKey) (lat lon : ℚ)
    (features : List PlanetFeature) : Option (PlanetFeature × ℝ) :=
  match features with
  | [] => none
  | f0 :: _ =>
    some (nearestGo body lat lon features
      (f0, calculateDistance body lat lon f0.lat f0.lon))

end TileViewer

namespace TileViewer

/-- The scan returns either its seed or a list member paired with its own
distance, never increases the tracked minimum, and ends at or below the
distance of every scanned feature. -/
theorem nearestGo_spec (body : BodyKey) (lat lon : ℚ)
    (l : List PlanetFeature) (best : PlanetFeature × ℝ) :
    (nearestGo body lat lon l best = best ∨
      ((nearestGo body lat lon l best).1 ∈ l ∧
        (nearestGo body lat lon l best).2 =
          calculateDistance body lat lon (nearestGo body lat lon l best).1.lat
            (nearestGo body lat lon l best).1.lon)) ∧
    (nearestGo body lat lon l best).2 ≤ best.2 ∧
    ∀ g ∈ l, (nearestGo body lat lon l best).2 ≤
      calculateDistance body lat lon g.lat g.lon := by
  induction l generalizing best with
  | nil =>
    refine ⟨Or.inl rfl, le_refl _, ?_⟩
    intro g hg
    exact absurd hg (List.not_mem_nil g)
  | cons f rest ih =>
    by_cases h : calculateDistance body lat lon f.lat f.lon < best.2
    · have hstep : nearestGo body lat lon (f :: rest) best =
          nearestGo body lat lon rest (f, calculateDistance body lat lon f.lat f.lon) := by
        simp only [nearestGo, if_pos h]
      obtain ⟨hmem, hle, hall⟩ :=
        ih (f, calculateDistance body lat lon f.lat f.lon)
      rw [hstep]
      refine ⟨?_, le_trans hle (le_of_lt h), ?_⟩
      · rcases hmem with heq | ⟨h1, h2⟩
        · right
          rw [heq]
          exact ⟨List.mem_cons_self f rest, rfl⟩
        · exact Or.inr ⟨List.mem_cons_of_mem f h1, h2⟩
      · intro g hg
        rcases List.mem_cons.mp hg with hg | hg
        · rw [hg] at *
          exact hle
        · exact hall g hg
    · have hstep : nearestGo body lat lon (f :: rest) best =
          nearestGo body lat lon rest best := by
        simp only [nearestGo, if_neg h]
      obtain ⟨hmem, hle, hall⟩ := ih best
      rw [hstep]
      refine ⟨?_, hle, ?_⟩
      · rcases hmem with heq | ⟨h1, h2⟩
        · exact Or.inl heq
        · exact Or.inr ⟨List.mem_cons_of_mem f h1, h2⟩
      · intro g hg
        rcases List.mem_cons.mp hg with hg | hg
        · rw [hg]
          exact le_trans hle (not_lt.mp h)
        · exact hall g hg

end TileViewer

namespace TileViewer

/-- The haversine intermediate `a` for a diagonal pair: equal latitude and
longitude deltas of `d` degrees, at latitudes `l1` and `l2`. -/
noncomputable def havValue (d l1 l2 : ℝ) : ℝ :=
  Real.sin (d * Real.pi / 360) * Real.sin (d * Real.pi / 360) +
  Real.cos (l1 * Real.pi / 180) * Real.cos (l2 * Real.pi / 180) *
    (Real.sin (d * Real.pi / 360) * Real.sin (d * Real.pi / 360))

theorem havValue_neg (d l1 l2 : ℝ) : havValue (-d) l1 l2 = havValue d l1 l2 := by
  unfold havValue
  rw [show -d * Real.pi / 360 = -(d * Real.pi / 360) by ring, Real.sin_neg]
  ring

theorem cosdeg_nonneg {l : ℝ} (h : |l| ≤ 10) :
    0 ≤ Real.cos (l * Real.pi / 180) := by
  have hπ := Real.pi_pos
  have hl := abs_le.mp h
  apply Real.cos_nonneg_of_mem_Icc
  constructor
  · nlinarith [hl.1]
  · nlinarith [hl.2]

theorem cosprod_nonneg {l1 l2 : ℝ} (h1 : |l1| ≤ 10) (h2 : |l2| ≤ 10) :
    0 ≤ Real.cos (l1 * Real.pi / 180) * Real.cos (l2 * Real.pi / 180) :=
  mul_nonneg (cosdeg_nonneg h1) (cosdeg_nonneg h2)

theorem cosprod_le_one {l1 l2 : ℝ} (h1 : |l1| ≤ 10) (h2 : |l2| ≤ 10) :
    Real.cos (l1 * Real.pi / 180) * Real.cos (l2 * Real.pi / 180) ≤ 1 :=
  mul_le_one (Real.cos_le_one _) (cosdeg_nonneg h2) (Real.cos_le_one _)

/-- Comparison of haversine intermediates with a factor-4 margin on the
squared half-angles. -/
theorem hav_le {x y c d : ℝ} (hx0 : 0 < x) (hy0 : 0 < y) (hy1 : y ≤ 1)
    (hc0 : 0 ≤ c) (hc1 : c ≤ 1) (hd0 : 0 ≤ d) (hkey : 4 * (x * x) ≤ y * y) :
    Real.sin x * Real.sin x + c * (Real.sin x * Real.sin x) ≤
    Real.sin y * Real.sin y + d * (Real.sin y * Real.sin y) := by
  have hπ := Real.pi_gt_three
  have hsx0 : 0 ≤ Real.sin x := by
    apply Real.sin_nonneg_of_nonneg_of_le_pi hx0.le
    nlinarith [sq_nonneg (x - y), sq_nonneg y]
  have hsx1 : Real.sin x < x := Real.sin_lt hx0
  have hsy0 : 0 ≤ Real.sin y :=
    Real.sin_nonneg_of_nonneg_of_le_pi hy0.le (by linarith)
  have hsy1 : y - y ^ 3 / 4 < Real.sin y := Real.sin_gt_sub_cube hy0 hy1
  have hy3 : y ^ 3 ≤ y := by nlinarith
  have h34 : 3 / 4 * y ≤ Real.sin y := by nlinarith
  have k1 : Real.sin x * Real.sin x ≤ x * x :=
    mul_self_le_mul_self hsx0 hsx1.le
  have k2 : 3 / 4 * y * (3 / 4 * y) ≤ Real.sin y * Real.sin y :=
    mul_self_le_mul_self (by linarith) h34
  nlinarith [k1, k2, mul_nonneg hd0 (mul_self_nonneg (Real.sin y)),
    mul_nonneg (sub_nonneg.mpr hc1) (mul_self_nonneg (Real.sin x))]

/-- Strict comparison of haversine intermediates. -/
theorem hav_lt {x y c d : ℝ} (hx0 : 0 < x) (hy0 : 0 < y) (hy1 : y ≤ 1)
    (hc0 : 0 ≤ c) (hc1 : c ≤ 1) (hd0 : 0 ≤ d) (hkey : 4 * (x * x) < y * y) :
    Real.sin x * Real.sin x + c * (Real.sin x * Real.sin x) <
    Real.sin y * Real.sin y + d * (Real.sin y * Real.sin y) := by
  have hπ := Real.pi_gt_three
  have hsx0 : 0 ≤ Real.sin x := by
    apply Real.sin_nonneg_of_nonneg_of_le_pi hx0.le
    nlinarith [sq_nonneg (x - y), sq_nonneg y]
  have hsx1 : Real.sin x < x := Real.sin_lt hx0
  have hsy0 : 0 ≤ Real.sin y :=
    Real.sin_nonneg_of_nonneg_of_le_pi hy0.le (by linarith)
  have hsy1 : y - y ^ 3 / 4 < Real.sin y := Real.sin_gt_sub_cube hy0 hy1
  have hy3 : y ^ 3 ≤ y := by nlinarith
  have h34 : 3 / 4 * y ≤ Real.sin y := by nlinarith
  have k1 : Real.sin x * Real.sin x ≤ x * x :=
    mul_self_le_mul_self hsx0 hsx1.le
  have k2 : 3 / 4 * y * (3 / 4 * y) ≤ Real.sin y * Real.sin y :=
    mul_self_le_mul_self (by linarith) h34
  nlinarith [k1, k2, mul_nonneg hd0 (mul_self_nonneg (Real.sin y)),
    mul_nonneg (sub_nonneg.mpr hc1) (mul_self_nonneg (Real.sin x))]

theorem atan2_le_atan2 {a1 a2 : ℝ} (h0 : 0 ≤ a1) (h12 : a1 ≤ a2) (h2 : a2 < 1) :
    jsAtan2 (Real.sqrt a1) (Real.sqrt (1 - a1)) ≤
    jsAtan2 (Real.sqrt a2) (Real.sqrt (1 - a2)) := by
  have hx1 : 0 < Real.sqrt (1 - a1) := Real.sqrt_pos.mpr (by linarith)
  have hx2 : 0 < Real.sqrt (1 - a2) := Real.sqrt_pos.mpr (by linarith)
  unfold jsAtan2
  rw [if_pos hx1, if_pos hx2]
  exact Real.arctan_strictMono.monotone
    (div_le_div (Real.sqrt_nonneg _) (Real.sqrt_le_sqrt h12) hx2
      (Real.sqrt_le_sqrt (by linarith)))

theorem atan2_lt_atan2 {a1 a2 : ℝ} (h0 : 0 ≤ a1) (h12 : a1 < a2) (h2 : a2 < 1) :
    jsAtan2 (Real.sqrt a1) (Real.sqrt (1 - a1)) <
    jsAtan2 (Real.sqrt a2) (Real.sqrt (1 - a2)) := by
  have hx1 : 0 < Real.sqrt (1 - a1) := Real.sqrt_pos.mpr (by linarith)
  have hx2 : 0 < Real.sqrt (1 - a2) := Real.sqrt_pos.mpr (by linarith)
  unfold jsAtan2
  rw [if_pos hx1, if_pos hx2]
  exact Real.arctan_strictMono
    (div_lt_div (Real.sqrt_lt_sqrt h0 h12) (Real.sqrt_le_sqrt (by linarith))
      (Real.sqrt_nonneg _) hx2)

theorem distR_le {R a1 a2 : ℝ} (hR : 0 ≤ R) (h0 : 0 ≤ a1) (h12 : a1 ≤ a2)
    (h2 : a2 < 1) :
    R * (2 * jsAtan2 (Real.sqrt a1) (Real.sqrt (1 - a1))) ≤
    R * (2 * jsAtan2 (Real.sqrt a2) (Real.sqrt (1 - a2))) := by
  apply mul_le_mul_of_nonneg_left _ hR
  have := atan2_le_atan2 h0 h12 h2
  linarith

theorem distR_lt {R a1 a2 : ℝ} (hR : 0 < R) (h0 : 0 ≤ a1) (h12 : a1 < a2)
    (h2 : a2 < 1) :
    R * (2 * jsAtan2 (Real.sqrt a1) (Real.sqrt (1 - a1))) <
    R * (2 * jsAtan2 (Real.sqrt a2) (Real.sqrt (1 - a2))) := by
  apply mul_lt_mul_of_pos_left _ hR
  have := atan2_lt_atan2 h0 h12 h2
  linarith

theorem havValue_nonneg {d l1 l2 : ℝ}
    (hc : 0 ≤ Real.cos (l1 * Real.pi / 180) * Real.cos (l2 * Real.pi / 180)) :
    0 ≤ havValue d l1 l2 := by
  unfold havValue
  nlinarith [mul_self_nonneg (Real.sin (d * Real.pi / 360)),
    mul_nonneg hc (mul_self_nonneg (Real.sin (d * Real.pi / 360)))]

theorem havValue_lt_one {d l1 l2 : ℝ} (hd0 : 0 < d) (hd : d ≤ 14)
    (hc1 : Real.cos (l1 * Real.pi / 180) * Real.cos (l2 * Real.pi / 180) ≤ 1) :
    havValue d l1 l2 < 1 := by
  have hπ0 := Real.pi_pos
  have hπ4 := Real.pi_le_four
  have hx0 : 0 < d * Real.pi / 360 := by positivity
  have hx1 : d * Real.pi / 360 ≤ 56 / 360 := by nlinarith
  have hsx0 : 0 ≤ Real.sin (d * Real.pi / 360) := by
    apply Real.sin_nonneg_of_nonneg_of_le_pi hx0.le
    nlinarith [Real.pi_gt_three]
  have hsx1 : Real.sin (d * Real.pi / 360) < d * Real.pi / 360 := Real.sin_lt hx0
  have k1 : Real.sin (d * Real.pi / 360) * Real.sin (d * Real.pi / 360) ≤
      (56 / 360) * (56 / 360) :=
    mul_self_le_mul_self hsx0 (by linarith)
  unfold havValue
  nlinarith [k1, mul_self_nonneg (Real.sin (d * Real.pi / 360)), hc1]

end TileViewer

namespace TileViewer

/-- On a diagonal pair (equal latitude and longitude deltas, longitudes
already canonical) the haversine distance reduces to the `havValue` form. -/
theorem calculateDistance_diag (body : BodyKey) (q f : ℚ)
    (hq : Coordinates.normalizeLongitude q (BODY_LONGITUDE_CONVENTIONS body) = q)
    (hf : Coordinates.normalizeLongitude f (BODY_LONGITUDE_CONVENTIONS body) = f) :
    calculateDistance body q q f f =
    ((BODY_RADII_KM body : ℚ) : ℝ) *
      (2 * jsAtan2 (Real.sqrt (havValue ((f : ℝ) - (q : ℝ)) (q : ℝ) (f : ℝ)))
        (Real.sqrt (1 - havValue ((f : ℝ) - (q : ℝ)) (q : ℝ) (f : ℝ)))) := by
  simp only [calculateDistance, hq, hf, havValue]
  push_cast
  ring_nf

theorem normMars_one :
    Coordinates.normalizeLongitude 1 (BODY_LONGITUDE_CONVENTIONS .mars) = 1 := by
  norm_num [Coordinates.normalizeLongitude, BODY_LONGITUDE_CONVENTIONS,
    Coordinates.wrapLongitude360, Coordinates.wrapLongitude180, jsMod, jsTrunc]

theorem normMars_zero :
    Coordinates.normalizeLongitude 0 (BODY_LONGITUDE_CONVENTIONS .mars) = 0 := by
  norm_num [Coordinates.normalizeLongitude, BODY_LONGITUDE_CONVENTIONS,
    Coordinates.wrapLongitude360, Coordinates.wrapLongitude180, jsMod, jsTrunc]

theorem normMars_ten :
    Coordinates.normalizeLongitude 10 (BODY_LONGITUDE_CONVENTIONS .mars) = 10 := by
  norm_num [Coordinates.normalizeLongitude, BODY_LONGITUDE_CONVENTIONS,
    Coordinates.wrapLongitude360, Coordinates.wrapLongitude180, jsMod, jsTrunc]

theorem wrapLongitude180_eq_floor (v : ℚ) :
    Coordinates.wrapLongitude180 v = v - 360 * (⌊(v + 180) / 360⌋ : ℤ) := by
  unfold Coordinates.wrapLongitude180
  rw [jsMod_wrap]
  ring

theorem normMars_negFive :
    Coordinates.normalizeLongitude (-5) (BODY_LONGITUDE_CONVENTIONS .mars) = -5 := by
  have h360 : Coordinates.wrapLongitude360 (-5) = 355 := by
    rw [Coordinates.wrapLongitude360_eq,
      show ⌊(-5 : ℚ) / 360⌋ = -1 from by norm_num]
    norm_num
  show Coordinates.wrapLongitude180 (Coordinates.wrapLongitude360 (-5)) = -5
  rw [h360, wrapLongitude180_eq_floor,
    show ⌊((355 : ℚ) + 180) / 360⌋ = 1 from by norm_num]
  norm_num

theorem normMars_negFour :
    Coordinates.normalizeLongitude (-4) (BODY_LONGITUDE_CONVENTIONS .mars) = -4 := by
  have h360 : Coordinates.wrapLongitude360 (-4) = 356 := by
    rw [Coordinates.wrapLongitude360_eq,
      show ⌊(-4 : ℚ) / 360⌋ = -1 from by norm_num]
    norm_num
  show Coordinates.wrapLongitude180 (Coordinates.wrapLongitude360 (-4)) = -4
  rw [h360, wrapLongitude180_eq_floor,
    show ⌊((356 : ℚ) + 180) / 360⌋ = 1 from by norm_num]
  norm_num

end TileViewer

namespace TileViewer

theorem distMars_AB :
    calculateDistance .mars 1 1 0 0 ≤ calculateDistance .mars 1 1 10 10 := by
  rw [calculateDistance_diag .mars 1 0 normMars_one normMars_zero,
    calculateDistance_diag .mars 1 10 normMars_one normMars_ten,
    show ((0 : ℚ) : ℝ) - ((1 : ℚ) : ℝ) = -(1 : ℝ) by norm_num,
    show ((10 : ℚ) : ℝ) - ((1 : ℚ) : ℝ) = (9 : ℝ) by norm_num,
    havValue_neg]
  apply distR_le (by norm_num [BODY_RADII_KM])
  · exact havValue_nonneg (cosprod_nonneg (by norm_num) (by norm_num))
  · unfold havValue
    apply hav_le
    · positivity
    · positivity
    · nlinarith [Real.pi_le_four]
    · exact cosprod_nonneg (by norm_num) (by norm_num)
    · exact cosprod_le_one (by norm_num) (by norm_num)
    · exact cosprod_nonneg (by norm_num) (by norm_num)
    · nlinarith [sq_nonneg Real.pi]
  · exact havValue_lt_one (by norm_num) (by norm_num)
      (cosprod_le_one (by norm_num) (by norm_num))

theorem distMars_AC :
    calculateDistance .mars 1 1 0 0 ≤ calculateDistance .mars 1 1 (-5) (-5) := by
  rw [calculateDistance_diag .mars 1 0 normMars_one normMars_zero,
    calculateDistance_diag .mars 1 (-5) normMars_one normMars_negFive,
    show ((0 : ℚ) : ℝ) - ((1 : ℚ) : ℝ) = -(1 : ℝ) by norm_num,
    show ((-5 : ℚ) : ℝ) - ((1 : ℚ) : ℝ) = -(6 : ℝ) by norm_num,
    havValue_neg, havValue_neg]
  apply distR_le (by norm_num [BODY_RADII_KM])
  · exact havValue_nonneg (cosprod_nonneg (by norm_num) (by norm_num))
  · unfold havValue
    apply hav_le
    · positivity
    · positivity
    · nlinarith [Real.pi_le_four]
    · exact cosprod_nonneg (by norm_num) (by norm_num)
    · exact cosprod_le_one (by norm_num) (by norm_num)
    · exact cosprod_nonneg (by norm_num) (by norm_num)
    · nlinarith [sq_nonneg Real.pi]
  · exact havValue_lt_one (by norm_num) (by norm_num)
      (cosprod_le_one (by norm_num) (by norm_num))

theorem distMars_AB' :
    calculateDistance .mars (-4) (-4) 0 0 ≤
    calculateDistance .mars (-4) (-4) 10 10 := by
  rw [calculateDistance_diag .mars (-4) 0 normMars_negFour normMars_zero,
    calculateDistance_diag .mars (-4) 10 normMars_negFour normMars_ten,
    show ((0 : ℚ) : ℝ) - ((-4 : ℚ) : ℝ) = (4 : ℝ) by norm_num,
    show ((10 : ℚ) : ℝ) - ((-4 : ℚ) : ℝ) = (14 : ℝ) by norm_num]
  apply distR_le (by norm_num [BODY_RADII_KM])
  · exact havValue_nonneg (cosprod_nonneg (by norm_num) (by norm_num))
  · unfold havValue
    apply hav_le
    · positivity
    · positivity
    · nlinarith [Real.pi_le_four]
    · exact cosprod_nonneg (by norm_num) (by norm_num)
    · exact cosprod_le_one (by norm_num) (by norm_num)
    · exact cosprod_nonneg (by norm_num) (by norm_num)
    · nlinarith [sq_nonneg Real.pi]
  · exact havValue_lt_one (by norm_num) (by norm_num)
      (cosprod_le_one (by norm_num) (by norm_num))

theorem distMars_CA' :
    calculateDistance .mars (-4) (-4) (-5) (-5) <
    calculateDistance .mars (-4) (-4) 0 0 := by
  rw [calculateDistance_diag .mars (-4) (-5) normMars_negFour normMars_negFive,
    calculateDistance_diag .mars (-4) 0 normMars_negFour normMars_zero,
    show ((-5 : ℚ) : ℝ) - ((-4 : ℚ) : ℝ) = -(1 : ℝ) by norm_num,
    show ((0 : ℚ) : ℝ) - ((-4 : ℚ) : ℝ) = (4 : ℝ) by norm_num,
    havValue_neg]
  apply distR_lt (by norm_num [BODY_RADII_KM])
  · exact havValue_nonneg (cosprod_nonneg (by norm_num) (by norm_num))
  · unfold havValue
    apply hav_lt
    · positivity
    · positivity
    · nlinarith [Real.pi_le_four]
    · exact cosprod_nonneg (by norm_num) (by norm_num)
    · exact cosprod_le_one (by norm_num) (by norm_num)
    · exact cosprod_nonneg (by norm_num) (by norm_num)
    · nlinarith [Real.pi_pos, mul_pos Real.pi_pos Real.pi_pos]
  · exact havValue_lt_one (by norm_num) (by norm_num)
      (cosprod_le_one (by norm_num) (by norm_num))

end TileViewer

/-- Mars test feature A at (0, 0). -/
def featA : TileViewer.PlanetFeature := { name := "A", lat := 0, lon := 0 }

/-- Mars test feature B at (10, 10). -/
def featB : TileViewer.PlanetFeature := { name := "B", lat := 10, lon := 10 }

/-- Mars test feature C at (-5, -5). -/
def featC : TileViewer.PlanetFeature := { name := "C", lat := -5, lon := -5 }

theorem findNearest_mars_A :
    TileViewer.findNearest .mars 1 1 [featA, featB, featC] =
      some (featA, TileViewer.calculateDistance .mars 1 1 0 0) := by
  simp only [TileViewer.findNearest, TileViewer.nearestGo, featA, featB, featC]
  rw [if_neg (lt_irrefl _), if_neg (not_lt.mpr TileViewer.distMars_AB),
    if_neg (not_lt.mpr TileViewer.distMars_AC)]

theorem findNearest_mars_C :
    TileViewer.findNearest .mars (-4) (-4) [featA, featB, featC] =
      some (featC, TileViewer.calculateDistance .mars (-4) (-4) (-5) (-5)) := by
  simp only [TileViewer.findNearest, TileViewer.nearestGo, featA, featB, featC]
  rw [if_neg (lt_irrefl _), if_neg (not_lt.mpr TileViewer.distMars_AB'),
    if_pos TileViewer.distMars_CA']

/-- C8: for every body and non-empty feature list, the reverse search
returns a member of the list together with its haversine distance computed
by calculateDistance (which by definition uses the body's own mean radius
from BODY_RADII_KM, never another body's), and that distance is minimal
over the whole list; in particular with Mars features A(0,0), B(10,10),
C(-5,-5), nearest(1,1) returns A and nearest(-4,-4) returns C, each paired
with its Mars-radius haversine distance. -/
theorem C8_nearest_feature :
    (∀ (body : TileViewer.BodyKey) (lat lon : ℚ) (f : TileViewer.PlanetFeature)
        (fs : List TileViewer.PlanetFeature) (r : TileViewer.PlanetFeature × ℝ),
      TileViewer.findNearest body lat lon (f :: fs) = some r →
        r.1 ∈ f :: fs ∧
        r.2 = TileViewer.calculateDistance body lat lon r.1.lat r.1.lon ∧
        ∀ g ∈ f :: fs,
          r.2 ≤ TileViewer.calculateDistance body lat lon g.lat g.lon) ∧
    TileViewer.findNearest .mars 1 1 [featA, featB, featC] =
      some (featA, TileViewer.calculateDistance .mars 1 1 0 0) ∧
    TileViewer.findNearest .mars (-4) (-4) [featA, featB, featC] =
      some (featC, TileViewer.calculateDistance .mars (-4) (-4) (-5) (-5)) := by
  refine ⟨?_, findNearest_mars_A, findNearest_mars_C⟩
  intro body lat lon f fs r hr
  have hfn : TileViewer.findNearest body lat lon (f :: fs) =
      some (TileViewer.nearestGo body lat lon (f :: fs)
        (f, TileViewer.calculateDistance body lat lon f.lat f.lon)) := rfl
  rw [hfn] at hr
  have hr' := Option.some.inj hr
  obtain ⟨hmem, hle, hall⟩ := TileViewer.nearestGo_spec body lat lon (f :: fs)
    (f, TileViewer.calculateDistance body lat lon f.lat f.lon)
  rw [hr'] at hmem hle hall
  refine ⟨?_, ?_, hall⟩
  · rcases hmem with heq | ⟨h1, _⟩
    · rw [heq]
      exact List.mem_cons_self f fs
    · exact h1
  · rcases hmem with heq | ⟨_, h2⟩
    · rw [heq]
    · exact h2

/-- C8 witness: instantiating the general clause at the Mars fixture shows
A is a member of the list and its distance is minimal against B. -/
theorem C8_nearest_feature_witness :
    featA ∈ [featA, featB, featC] ∧
    TileViewer.calculateDistance .mars 1 1 0 0 ≤
      TileViewer.calculateDistance .mars 1 1 10 10 := by
  have h := C8_nearest_feature.1 .mars 1 1 featA [featB, featC]
    (featA, TileViewer.calculateDistance .mars 1 1 0 0) findNearest_mars_A
  refine ⟨h.1, ?_⟩
  have hB := h.2.2 featB (by simp)
  exact hB
